/-
  Verification development for the ghost-squad server core.

  Shallow embedding of the server-side simulation and decision core:
  - `GameSrv`  : the per-room simulation engine (src/server/Game.ts, first document)
  - `GMgr`     : the room registry (src/server/GameManager.ts, first document)
  - `Brain`    : the defensive Pac-Man brain (src/server/PacmanBrain.ts, first document)

  JavaScript `number` values that can carry Infinity/NaN are modelled by `JNum`
  (an extended rational); integer-valued quantities (grid coordinates, distances,
  scores) are modelled by `Int`/`Nat`.  JS `Map`/`Set` objects are modelled by
  insertion-ordered association lists.  Socket ids and usernames are opaque
  strings in the source and are modelled by `Nat`.

  The constant maze data (`src/shared/maze.ts`: MAZE_LAYOUT, TELEPORT_POINTS,
  STARTING_POSITIONS) is not part of the source tree; it is modelled from the
  spec as a `Maze` parameter (a grid of cell codes 0..3, a teleport pair table
  and named starting positions).
-/
import Mathlib

set_option linter.unusedVariables false

/-- Integer grid position, as in `src/shared/maze.ts` (`Position`). -/
structure Position where
  x : Int
  y : Int
deriving DecidableEq, Repr

/-- The four cardinal directions (shared/constants.ts `DIRECTIONS`). -/
inductive Direction where
  | UP
  | DOWN
  | LEFT
  | RIGHT
deriving DecidableEq, Repr

/-- Unit vector of a direction, from `CONSTANTS.DIRECTIONS`. -/
def dirVec : Direction → Position
  | .UP => ⟨0, -1⟩
  | .DOWN => ⟨0, 1⟩
  | .LEFT => ⟨-1, 0⟩
  | .RIGHT => ⟨1, 0⟩

/-- Ghost identities (shared/constants.ts `GHOSTS`). -/
inductive GhostType where
  | blinky
  | pinky
  | inky
  | clyde
deriving DecidableEq, Repr

/-- Player lifecycle state (`PlayerState` in Game.ts). -/
inductive PlayerState where
  | active
  | frightened
  | respawning
deriving DecidableEq, Repr

/-- Game mode (`GameMode` in Game.ts / `CONSTANTS.MODES`). -/
inductive GameMode where
  | chase
  | frightened
  | game_over
deriving DecidableEq, Repr

/-- A teleport pair from the `TELEPORT_POINTS` table: stepping onto `entry`
is post-processed to `exit` in the same tick. -/
structure Teleport where
  entry : Position
  exit : Position
deriving DecidableEq, Repr

/-- Named starting positions (`STARTING_POSITIONS`). -/
structure StartingPositions where
  pacman : Position
  ghostHouse : Position
  blinky : Position
  pinky : Position
  inky : Position
  clyde : Position
deriving DecidableEq, Repr

/-- Starting position of a ghost identity (`STARTING_POSITIONS[ghostType]`). -/
def StartingPositions.ofGhost (sp : StartingPositions) : GhostType → Position
  | .blinky => sp.blinky
  | .pinky => sp.pinky
  | .inky => sp.inky
  | .clyde => sp.clyde

/-- Modelled from the spec: the constant maze data of `src/shared/maze.ts`
(MAZE_LAYOUT: a grid of cell codes `0=WALL, 1=DOT, 2=POWER_PELLET,
3=GHOST_HOUSE` stored as a list of rows; TELEPORT_POINTS; STARTING_POSITIONS)
is not included under src/, so it is carried as a parameter.  A cell lookup
outside the stored rows yields `none` (JS `undefined`). -/
structure Maze where
  layout : List (List Nat)
  teleports : List Teleport
  starting : StartingPositions

/-- `MAZE_LAYOUT[y][x]` as an optional cell code (JS yields `undefined` when
the row or the column is missing; `undefined !== 0` is true). -/
def Maze.cellAt (m : Maze) (x y : Int) : Option Nat :=
  if h : 0 ≤ y then
    match m.layout.get? y.toNat with
    | none => none
    | some row => if 0 ≤ x then row.get? x.toNat else none
  else none

/- Shared constants (src/shared/constants.ts, first document). -/

def GRID_WIDTH : Int := 28
def GRID_HEIGHT : Int := 35
def FRIGHTENED_DURATION : Int := 10000
def RESPAWN_DELAY : Int := 5000
def TICK_RATE : Int := 50
def GHOST_CAPTURE_BASE_SCORE : Int := 200
/-- `MULTIPLAYER_BONUS_MULTIPLIER = 1.5`, kept as an exact rational. -/
def MULTIPLAYER_BONUS_MULTIPLIER : ℚ := 3 / 2
def DOT_VALUE : Int := 10
def POWER_PELLET_VALUE : Int := 50
def CAPTURES_TO_WIN : Nat := 3

/- Association-list model of JS `Map` (insertion-ordered; `set` updates in
place, `delete` removes the unique entry). -/

/-- `map.get(k)` -/
def aget {κ α : Type} [DecidableEq κ] (l : List (κ × α)) (k : κ) : Option α :=
  (l.find? (fun e => decide (e.1 = k))).map (·.2)

/-- `map.set(k, v)`: replaces in place if present, else appends. -/
def aset {κ α : Type} [DecidableEq κ] (l : List (κ × α)) (k : κ) (v : α) : List (κ × α) :=
  if (l.find? (fun e => decide (e.1 = k))).isSome then
    l.map (fun e => if e.1 = k then (k, v) else e)
  else
    l ++ [(k, v)]

/-- `map.delete(k)` (keys are unique, so filtering is the deletion). -/
def adel {κ α : Type} [DecidableEq κ] (l : List (κ × α)) (k : κ) : List (κ × α) :=
  l.filter (fun e => decide (e.1 ≠ k))

namespace GameSrv

/-- One human player record (`interface Player` in Game.ts), together with the
buffered `intendedDirection` written by `handlePlayerInput`. -/
structure Player where
  socketId : Nat
  username : Nat
  ghostType : GhostType
  position : Position
  direction : Direction
  state : PlayerState
  respawnTime : Option Int
  ready : Bool
  intendedDirection : Option Direction
deriving DecidableEq, Repr

/-- The mutable state of one `Game` room (Game.ts fields; network, emote and
debug-only fields are not modelled). -/
structure GState where
  isStarted : Bool
  mode : GameMode
  score : Int
  captureCount : Nat
  dots : List Position
  powerPellets : List Position
  dotSet : List (Int × Int)
  pelletSet : List (Int × Int)
  pacmanPosition : Position
  previousPacmanPosition : Position
  pacmanDirection : Direction
  players : List (Nat × Player)
  previousPlayerPositions : List (Nat × Position)
  respawnTimers : List (Nat × Int)
  frightenedStartTime : Option Int
  dotsChanged : Bool
  pelletsChanged : Bool
deriving DecidableEq, Repr

/-- `Game.isWalkable(x, y)`: in bounds of the layout array and the cell code
is not 0.  (A missing column inside the bounds reads as `undefined`, which is
`!== 0`.) -/
def isWalkable (m : Maze) (x y : Int) : Bool :=
  let mazeHeight : Int := m.layout.length
  let mazeWidth : Int := (m.layout.headD []).length
  if x < 0 ∨ x ≥ mazeWidth ∨ y < 0 ∨ y ≥ mazeHeight then
    false
  else
    decide (m.cellAt x y ≠ some 0)

/-- `Game.checkTeleport(pos)`: the exit of the first teleport whose entry
matches, else `null`. -/
def checkTeleport (m : Maze) (pos : Position) : Option Position :=
  (m.teleports.find? (fun t => decide (pos.x = t.entry.x ∧ pos.y = t.entry.y))).map (·.exit)

/-- `initializeDots` (scans rows then columns, collecting cells with code 1). -/
def initDots (m : Maze) : List Position :=
  (List.range m.layout.length).flatMap (fun y =>
    (List.range ((m.layout.getD y []).length)).filterMap (fun x =>
      if (m.layout.getD y []).getD x 0 = 1 then some ⟨(x : Int), (y : Int)⟩ else none))

/-- `initializePowerPellets` (cells with code 2). -/
def initPellets (m : Maze) : List Position :=
  (List.range m.layout.length).flatMap (fun y =>
    (List.range ((m.layout.getD y []).length)).filterMap (fun x =>
      if (m.layout.getD y []).getD x 0 = 2 then some ⟨(x : Int), (y : Int)⟩ else none))

/-- `createPositionSet` (JS `Set` keyed by the `"x,y"` string; the key is an
injective image of the coordinate pair). -/
def createPositionSet (positions : List Position) : List (Int × Int) :=
  positions.foldl (fun s p => if (p.x, p.y) ∈ s then s else s ++ [(p.x, p.y)]) []

/-- The state of a freshly constructed `Game` room (constructor of Game.ts). -/
def initialState (m : Maze) : GState where
  isStarted := false
  mode := .chase
  score := 0
  captureCount := 0
  dots := initDots m
  powerPellets := initPellets m
  dotSet := createPositionSet (initDots m)
  pelletSet := createPositionSet (initPellets m)
  pacmanPosition := m.starting.pacman
  previousPacmanPosition := m.starting.pacman
  pacmanDirection := .RIGHT
  players := []
  previousPlayerPositions := []
  respawnTimers := []
  frightenedStartTime := none
  dotsChanged := false
  pelletsChanged := false

/-- `addPlayer(socketId, username, ghostType)`. -/
def addPlayer (m : Maze) (socketId username : Nat) (ghostType : GhostType)
    (s : GState) : GState :=
  let position := m.starting.ofGhost ghostType
  { s with
    players := aset s.players socketId
      { socketId := socketId, username := username, ghostType := ghostType
        position := position, direction := .UP, state := .active
        respawnTime := none, ready := false, intendedDirection := none }
    previousPlayerPositions := aset s.previousPlayerPositions socketId position }

/-- `removePlayer(socketId)`. -/
def removePlayer (socketId : Nat) (s : GState) : GState :=
  { s with
    players := adel s.players socketId
    previousPlayerPositions := adel s.previousPlayerPositions socketId }

/-- `isGhostTaken(ghostType)`. -/
def isGhostTaken (ghostType : GhostType) (s : GState) : Bool :=
  s.players.any (fun e => decide (e.2.ghostType = ghostType))

/-- `isFull()`. -/
def isFull (s : GState) : Bool :=
  decide (s.players.length ≥ 4)

/-- `handlePlayerInput(socketId, direction)`: buffers the intended direction
on the player record when the player is active or frightened. -/
def handlePlayerInput (socketId : Nat) (direction : Direction) (s : GState) : GState :=
  match aget s.players socketId with
  | none => s
  | some p =>
    if p.state = .active ∨ p.state = .frightened then
      { s with players := aset s.players socketId { p with intendedDirection := some direction } }
    else s

/-- `checkDotCollision(x, y)`: O(1) set membership, then removal from both the
set and the array (`findIndex` + `splice`), score and delta-flag update. -/
def checkDotCollision (x y : Int) (s : GState) : GState :=
  if (x, y) ∈ s.dotSet then
    { s with
      dotSet := s.dotSet.filter (fun k => decide (k ≠ (x, y)))
      dots := s.dots.eraseP (fun d => decide (d.x = x ∧ d.y = y))
      score := s.score + DOT_VALUE
      dotsChanged := true }
  else s

/-- `activateFrightenedMode()` state effect (emote pick and the JS timer object
are not modelled; the timer callback is `frightenedTimerFire`).  `now` is the
value of `Date.now()`. -/
def activateFrightenedMode (now : Int) (s : GState) : GState :=
  { s with
    mode := .frightened
    frightenedStartTime := some now
    players := s.players.map (fun e =>
      if e.2.state = .active then (e.1, { e.2 with state := PlayerState.frightened }) else e) }

/-- The callback of the frightened-mode timer in `activateFrightenedMode`:
back to chase, all frightened players become active. -/
def frightenedTimerFire (s : GState) : GState :=
  { s with
    mode := .chase
    frightenedStartTime := none
    players := s.players.map (fun e =>
      if e.2.state = .frightened then (e.1, { e.2 with state := PlayerState.active }) else e) }

/-- `checkPowerPelletCollision(x, y)`. -/
def checkPowerPelletCollision (now : Int) (x y : Int) (s : GState) : GState :=
  if (x, y) ∈ s.pelletSet then
    activateFrightenedMode now
      { s with
        pelletSet := s.pelletSet.filter (fun k => decide (k ≠ (x, y)))
        powerPellets := s.powerPellets.eraseP (fun p => decide (p.x = x ∧ p.y = y))
        score := s.score + POWER_PELLET_VALUE
        pelletsChanged := true }
  else s

/-- The movement half of `movePacman()`: the AI modules have already produced
`dir` (assigned to `pacmanDirection`); the move is applied only if the target
is walkable, then teleport is applied and dot/pellet collisions are checked. -/
def movePacmanWith (m : Maze) (now : Int) (dir : Direction) (s : GState) : GState :=
  let s := { s with pacmanDirection := dir }
  let d := dirVec dir
  let targetX := s.pacmanPosition.x + d.x
  let targetY := s.pacmanPosition.y + d.y
  if isWalkable m targetX targetY then
    let pos : Position := ⟨targetX, targetY⟩
    let pos :=
      match checkTeleport m pos with
      | some exitPos => exitPos
      | none => pos
    let s := { s with pacmanPosition := pos }
    let s := checkDotCollision pos.x pos.y s
    checkPowerPelletCollision now pos.x pos.y s
  else s

/-- The buffered-input phase of `moveGhost(player)`: adopt the intended
direction when it became walkable, clearing the buffer. -/
def adoptBuffer (m : Maze) (player : Player) : Player :=
  match player.intendedDirection with
  | none => player
  | some intended =>
    let iv := dirVec intended
    if isWalkable m (player.position.x + iv.x) (player.position.y + iv.y) then
      { player with direction := intended, intendedDirection := none }
    else player

/-- The movement phase of `moveGhost(player)`: move one cell in the facing
direction if walkable (else keep the position, retaining the facing), applying
teleport. -/
def ghostStep (m : Maze) (player : Player) : Player :=
  let d := dirVec player.direction
  let targetX := player.position.x + d.x
  let targetY := player.position.y + d.y
  if isWalkable m targetX targetY then
    let pos : Position := ⟨targetX, targetY⟩
    let pos :=
      match checkTeleport m pos with
      | some exitPos => exitPos
      | none => pos
    { player with position := pos }
  else player

/-- `moveGhost(player)` (the store-back of the mutated player record is an
`aset` on the players map). -/
def moveGhost (m : Maze) (socketId : Nat) (s : GState) : GState :=
  match aget s.players socketId with
  | none => s
  | some player =>
    { s with players := aset s.players socketId (ghostStep m (adoptBuffer m player)) }

/-- The per-player collision test of `checkCollisions()`: same tile now, or a
position swap with Pac-Man against the previous-position snapshots. -/
def collisionDetected (s : GState) (p : Player) : Bool :=
  let check1 := decide (p.position.x = s.pacmanPosition.x ∧ p.position.y = s.pacmanPosition.y)
  let check2 :=
    match aget s.previousPlayerPositions p.socketId with
    | none => false
    | some playerPrevPos =>
      decide (playerPrevPos.x = s.pacmanPosition.x ∧ playerPrevPos.y = s.pacmanPosition.y ∧
        p.position.x = s.previousPacmanPosition.x ∧ p.position.y = s.previousPacmanPosition.y)
  check1 || check2

/-- `respawnGhost(player)` state effect: the player is sent to `respawning` at
the ghost house and a respawn timer is armed for `RESPAWN_DELAY` ms (the
callback is `respawnTimerFire`; emote effects are not modelled). -/
def respawnGhost (m : Maze) (socketId : Nat) (s : GState) : GState :=
  match aget s.players socketId with
  | none => s
  | some player =>
    { s with
      players := aset s.players socketId
        { player with state := .respawning, position := m.starting.ghostHouse }
      respawnTimers := aset s.respawnTimers socketId RESPAWN_DELAY }

/-- The callback of the timer armed by `respawnGhost`: the player resumes as
frightened when the mode is still frightened (else active), teleported to its
own starting position; the timer entry is removed. -/
def respawnTimerFire (m : Maze) (socketId : Nat) (s : GState) : GState :=
  match aget s.players socketId with
  | none => s
  | some player =>
    { s with
      players := aset s.players socketId
        { player with
          state := if s.mode = .frightened then .frightened else .active
          position := m.starting.ofGhost player.ghostType }
      respawnTimers := adel s.respawnTimers socketId }

/-- The `nearbyCount` loop of `ghostCapturedPacman`: players of the room whose
Manhattan distance to Pac-Man's current position (the capture site) is < 3. -/
def nearbyCount (s : GState) : Nat :=
  (s.players.filter (fun e =>
    decide (|e.2.position.x - s.pacmanPosition.x| + |e.2.position.y - s.pacmanPosition.y| < 3))).length

/-- `ghostCapturedPacman(capturer)`: award `GHOST_CAPTURE_BASE_SCORE *
MULTIPLAYER_BONUS_MULTIPLIER ^ (nearbyCount - 1)` floored (`Math.floor`),
increment `captureCount`, reset Pac-Man to his starting cell. -/
def ghostCapturedPacman (m : Maze) (s : GState) : GState :=
  let points : ℚ :=
    (GHOST_CAPTURE_BASE_SCORE : ℚ) * MULTIPLAYER_BONUS_MULTIPLIER ^ ((nearbyCount s : Int) - 1)
  { s with
    score := s.score + ⌊points⌋
    captureCount := s.captureCount + 1
    pacmanPosition := m.starting.pacman }

/-- One iteration of the loop in `checkCollisions()` for the player keyed by
`socketId` (reading the live state, as the JS loop does). -/
def collisionStep (m : Maze) (s : GState) (socketId : Nat) : GState :=
  match aget s.players socketId with
  | none => s
  | some player =>
    if player.state ≠ .active ∧ player.state ≠ .frightened then s
    else if collisionDetected s player then
      if player.state = .frightened then respawnGhost m socketId s
      else ghostCapturedPacman m s
    else s

/-- `checkCollisions()`: the loop over `players.values()` (keys are fixed at
entry; respawn/capture never add or remove players). -/
def checkCollisions (m : Maze) (s : GState) : GState :=
  (s.players.map (·.1)).foldl (collisionStep m) s

/-- `checkGameOver()` mode transitions (broadcast and teardown are not
modelled). -/
def checkGameOver (s : GState) : GState :=
  if s.captureCount ≥ CAPTURES_TO_WIN then { s with mode := .game_over }
  else if s.dots.length = 0 then { s with mode := .game_over }
  else s

/-- The snapshot phase at the top of `update()`: previous positions are stored
before any movement. -/
def snapshotPositions (s : GState) : GState :=
  { s with
    previousPacmanPosition := s.pacmanPosition
    previousPlayerPositions :=
      s.players.foldl (fun acc e => aset acc e.1 e.2.position) s.previousPlayerPositions }

end GameSrv

namespace GMgr

/-- The per-instance state of `GameManager` (GameManager.ts, first document):
the room map and the player-to-room index.  Room codes are opaque 4-character
strings in the source, modelled by `Nat`.  The optional Redis mirror is
fire-and-forget and touches neither map. -/
structure MState where
  games : List (Nat × GameSrv.GState)
  playerRooms : List (Nat × Nat)
deriving DecidableEq, Repr

/-- The error strings returned by `joinRoom`, as an enumeration. -/
inductive JoinError where
  | roomNotFound
  | gameAlreadyStarted
  | roomIsFull
  | ghostAlreadyTaken
deriving DecidableEq, Repr

/-- The `{ success, error? }` result of `joinRoom`. -/
inductive JoinResult where
  | ok
  | err (e : JoinError)
deriving DecidableEq, Repr

/-- `GameManager.joinRoom(roomCode, socketId, username, ghostType)`:
validation in source order (room exists, not started, not full, ghost free),
then `game.addPlayer` and the `playerRooms` index entry. -/
def joinRoom (m : Maze) (st : MState) (roomCode socketId username : Nat)
    (ghostType : GhostType) : JoinResult × MState :=
  match aget st.games roomCode with
  | none => (.err .roomNotFound, st)
  | some game =>
    if game.isStarted then (.err .gameAlreadyStarted, st)
    else if GameSrv.isFull game then (.err .roomIsFull, st)
    else if GameSrv.isGhostTaken ghostType game then (.err .ghostAlreadyTaken, st)
    else
      (.ok,
        { games := aset st.games roomCode (GameSrv.addPlayer m socketId username ghostType game)
          playerRooms := aset st.playerRooms socketId roomCode })

end GMgr

/- Lemmas about the association-list model. -/

theorem aget_aset_map {κ α : Type} [DecidableEq κ] (l : List (κ × α)) (k : κ) (v : α) :
    aget (l.map (fun e => if e.1 = k then (k, v) else e)) k =
      if (l.find? (fun e => decide (e.1 = k))).isSome then some v else none := by
  induction l with
  | nil => simp [aget]
  | cons a l ih =>
    by_cases h : a.1 = k
    · simp [aget, List.find?, h]
    · simp only [List.map_cons, if_neg h]
      rw [aget] at ih ⊢
      simp only [List.find?, decide_eq_true_eq, h, decide_False] at ih ⊢
      simpa [h] using ih

theorem aget_append_single {κ α : Type} [DecidableEq κ] (l : List (κ × α)) (k : κ) (v : α)
    (h : (l.find? (fun e => decide (e.1 = k))).isSome = false) :
    aget (l ++ [(k, v)]) k = some v := by
  induction l with
  | nil => simp [aget, List.find?]
  | cons a l ih =>
    rw [aget] at ih ⊢
    simp only [List.find?] at h ⊢
    cases hd : decide (a.1 = k) with
    | true => rw [hd] at h; simp at h
    | false =>
      rw [hd] at h
      simp only [List.cons_append, List.find?, hd]
      exact ih h

/-- `map.get(k)` right after `map.set(k, v)` yields `v`. -/
theorem aget_aset_self {κ α : Type} [DecidableEq κ] (l : List (κ × α)) (k : κ) (v : α) :
    aget (aset l k v) k = some v := by
  rw [aset]
  by_cases h : (l.find? (fun e => decide (e.1 = k))).isSome
  · rw [if_pos h, aget_aset_map, if_pos h]
  · rw [if_neg h, aget_append_single]
    simp only [Bool.not_eq_true] at h
    exact h

theorem aget_map_ne {κ α : Type} [DecidableEq κ] (l : List (κ × α)) (k k' : κ) (v : α)
    (h : k' ≠ k) :
    aget (l.map (fun e => if e.1 = k then (k, v) else e)) k' = aget l k' := by
  induction l with
  | nil => simp [aget]
  | cons a l ih =>
    by_cases ha : a.1 = k
    · have h1 : ¬ (k = k') := fun hh => h hh.symm
      have h2 : ¬ (a.1 = k') := by rw [ha]; exact h1
      simp only [List.map_cons, if_pos ha]
      rw [aget, aget, List.find?, List.find?]
      simp only [h1, h2, decide_False]
      exact ih
    · simp only [List.map_cons, if_neg ha]
      rw [aget, aget, List.find?, List.find?]
      by_cases hb : a.1 = k'
      · simp [hb]
      · simp only [hb, decide_False]
        exact ih

theorem aget_append_single_ne {κ α : Type} [DecidableEq κ] (l : List (κ × α)) (k k' : κ) (v : α)
    (h : k' ≠ k) : aget (l ++ [(k, v)]) k' = aget l k' := by
  induction l with
  | nil =>
    have h' : ¬ (k = k') := fun hh => h hh.symm
    simp [aget, List.find?, h']
  | cons a l ih =>
    rw [List.cons_append, aget, aget, List.find?, List.find?]
    by_cases hb : a.1 = k'
    · simp [hb]
    · simp only [hb, decide_False]
      exact ih

/-- `map.set(k, v)` does not change `map.get(k')` for `k' ≠ k`. -/
theorem aget_aset_ne {κ α : Type} [DecidableEq κ] (l : List (κ × α)) (k k' : κ) (v : α)
    (h : k' ≠ k) : aget (aset l k v) k' = aget l k' := by
  rw [aset]
  by_cases hs : (l.find? (fun e => decide (e.1 = k))).isSome
  · rw [if_pos hs]; exact aget_map_ne l k k' v h
  · rw [if_neg hs]; exact aget_append_single_ne l k k' v h

/-- A successful `aget` returns an element of the list. -/
theorem aget_mem {κ α : Type} [DecidableEq κ] {l : List (κ × α)} {k : κ} {v : α}
    (h : aget l k = some v) : ∃ e ∈ l, e.1 = k ∧ e.2 = v := by
  rw [aget] at h
  rcases hf : l.find? (fun e => decide (e.1 = k)) with _ | e
  · rw [hf] at h; simp at h
  · rw [hf] at h
    refine ⟨e, List.mem_of_find?_eq_some hf, ?_, by simpa using h⟩
    have := List.find?_some hf
    simpa using this

/- Witness fixtures: a small concrete maze and room states. -/

/-- A small concrete maze used by the witnesses: one open row of 28 cells at
`y = 0` (so brain-side bounds are exercised), no teleports. -/
def wMaze : Maze where
  layout := [List.replicate 28 1]
  teleports := []
  starting :=
    { pacman := ⟨0, 0⟩, ghostHouse := ⟨13, 0⟩, blinky := ⟨27, 0⟩
      pinky := ⟨26, 0⟩, inky := ⟨25, 0⟩, clyde := ⟨24, 0⟩ }

/-- A ghost player that has just swapped cells with Pac-Man. -/
def wPlayer : GameSrv.Player where
  socketId := 0
  username := 0
  ghostType := .blinky
  position := ⟨1, 0⟩
  direction := .LEFT
  state := .active
  respawnTime := none
  ready := true
  intendedDirection := none

/-- Room state after the moves of one tick in which Pac-Man went `(1,0)→(2,0)`
while the ghost went `(2,0)→(1,0)` (a swap). -/
def wState : GameSrv.GState where
  isStarted := true
  mode := .chase
  score := 0
  captureCount := 0
  dots := [⟨5, 0⟩]
  powerPellets := []
  dotSet := [(5, 0)]
  pelletSet := []
  pacmanPosition := ⟨2, 0⟩
  previousPacmanPosition := ⟨1, 0⟩
  pacmanDirection := .RIGHT
  players := [(0, wPlayer)]
  previousPlayerPositions := [(0, ⟨2, 0⟩)]
  respawnTimers := []
  frightenedStartTime := none
  dotsChanged := false
  pelletsChanged := false

/-- The frightened ghost co-located with Pac-Man. -/
def w2Player : GameSrv.Player :=
  { wPlayer with state := .frightened, position := ⟨2, 0⟩ }

/-- The same room in frightened mode with the ghost frightened and co-located
with Pac-Man. -/
def w2State : GameSrv.GState :=
  { wState with
    mode := .frightened
    frightenedStartTime := some 0
    players := [(0, w2Player)] }

/-- The active ghost standing on Pac-Man's cell. -/
def w3Player : GameSrv.Player :=
  { wPlayer with position := ⟨2, 0⟩ }

/-- The room with the active ghost standing on Pac-Man's cell (a same-cell
capture with exactly one nearby player). -/
def w3State : GameSrv.GState :=
  { wState with players := [(0, w3Player)] }

/-- A room where the active ghost has just swapped with Pac-Man across a long
teleport, so that no player is within Manhattan distance 3 of the capture
site. -/
def cexState : GameSrv.GState :=
  { wState with
    pacmanPosition := ⟨20, 0⟩
    previousPacmanPosition := ⟨2, 0⟩
    players := [(0, w3Player)]
    previousPlayerPositions := [(0, ⟨20, 0⟩)] }

/-- C1: for every tick and every active/frightened player, the collision check
reports a collision exactly when (a) the player's post-move cell equals
Pac-Man's post-move cell, or (b) the player's pre-move cell equals Pac-Man's
post-move cell and the player's post-move cell equals Pac-Man's pre-move cell
(so adjacent agents that move through each other collide in that same tick). -/
theorem C1_collision_check_iff (s : GameSrv.GState) (p : GameSrv.Player)
    (hstate : p.state = PlayerState.active ∨ p.state = PlayerState.frightened)
    (pp : Position) (hprev : aget s.previousPlayerPositions p.socketId = some pp) :
    GameSrv.collisionDetected s p = true ↔
      ((p.position.x = s.pacmanPosition.x ∧ p.position.y = s.pacmanPosition.y) ∨
       (pp.x = s.pacmanPosition.x ∧ pp.y = s.pacmanPosition.y ∧
        p.position.x = s.previousPacmanPosition.x ∧
        p.position.y = s.previousPacmanPosition.y)) := by
  rw [GameSrv.collisionDetected, hprev]
  simp

/-- Witness for C1: the swap between Pac-Man `(1,0)→(2,0)` and the ghost
`(2,0)→(1,0)` is reported by the late collision check of that tick. -/
theorem C1_witness : GameSrv.collisionDetected wState wPlayer = true :=
  (C1_collision_check_iff wState wPlayer (Or.inl rfl) ⟨2, 0⟩ (by decide)).mpr
    (Or.inr (by decide))

/-- C2: a collision while the game is in frightened mode (where every
collision-eligible player is frightened) penalizes the colliding player, not
Pac-Man: the player becomes `respawning` at the ghost house, a respawn timer
of `RESPAWN_DELAY = 5000` ms is armed, and Pac-Man's position, the score and
the capture count are untouched; when the timer fires the player resumes as
`frightened` if the mode is still frightened (else `active`) at its own
starting position. -/
theorem C2_frightened_collision_respawns_ghost (m : Maze) (s : GameSrv.GState)
    (pid : Nat) (p : GameSrv.Player)
    (hmode : s.mode = GameMode.frightened)
    (hnoact : ∀ e ∈ s.players, e.2.state ≠ PlayerState.active)
    (hget : aget s.players pid = some p)
    (hel : p.state = PlayerState.active ∨ p.state = PlayerState.frightened)
    (hdet : GameSrv.collisionDetected s p = true) :
    (aget (GameSrv.collisionStep m s pid).players pid =
        some { p with state := PlayerState.respawning, position := m.starting.ghostHouse } ∧
      (GameSrv.collisionStep m s pid).pacmanPosition = s.pacmanPosition ∧
      (GameSrv.collisionStep m s pid).score = s.score ∧
      (GameSrv.collisionStep m s pid).captureCount = s.captureCount ∧
      aget (GameSrv.collisionStep m s pid).respawnTimers pid = some RESPAWN_DELAY ∧
      RESPAWN_DELAY = 5000) ∧
    (∀ (s₂ : GameSrv.GState) (q : GameSrv.Player), aget s₂.players pid = some q →
      aget (GameSrv.respawnTimerFire m pid s₂).players pid =
        some { q with
          state := if s₂.mode = GameMode.frightened then PlayerState.frightened
                   else PlayerState.active
          position := m.starting.ofGhost q.ghostType }) := by
  have hfr : p.state = PlayerState.frightened := by
    obtain ⟨e, he, -, h2⟩ := aget_mem hget
    rcases hel with h | h
    · exact absurd (h2 ▸ h) (hnoact e he)
    · exact h
  constructor
  · simp only [GameSrv.collisionStep, hget]
    rw [if_neg (by simp [hfr]), if_pos hdet, if_pos hfr]
    simp only [GameSrv.respawnGhost, hget]
    refine ⟨by rw [aget_aset_self], by trivial, by trivial, by trivial,
      by rw [aget_aset_self], by trivial⟩
  · intro s₂ q hq
    simp only [GameSrv.respawnTimerFire, hq]
    rw [aget_aset_self]

/-- Witness for C2: in the frightened room `w2State`, the colliding frightened
ghost is sent to the ghost house as `respawning` with a 5000 ms timer, and
Pac-Man, the score and the capture count are untouched. -/
theorem C2_witness :
    aget (GameSrv.collisionStep wMaze w2State 0).players 0 =
        some { w2Player with
          state := PlayerState.respawning, position := wMaze.starting.ghostHouse } ∧
      (GameSrv.collisionStep wMaze w2State 0).pacmanPosition = w2State.pacmanPosition ∧
      (GameSrv.collisionStep wMaze w2State 0).score = w2State.score ∧
      (GameSrv.collisionStep wMaze w2State 0).captureCount = w2State.captureCount ∧
      aget (GameSrv.collisionStep wMaze w2State 0).respawnTimers 0 = some RESPAWN_DELAY ∧
      RESPAWN_DELAY = 5000 :=
  (C2_frightened_collision_respawns_ghost wMaze w2State 0
    w2Player rfl (by decide) (by decide) (Or.inr rfl) (by decide)).1

/-- C3 (amended): a collision with an `active` player increments
`captureCount` by one, resets Pac-Man to his starting cell, and raises the
score by `⌊200 · 1.5 ^ (nearby − 1)⌋` where `nearby` counts players within
Manhattan distance < 3 of the capture site; the floor is exact (the award
equals `200 · 1.5 ^ (nearby − 1)`) whenever `1 ≤ nearby ≤ 4`. -/
theorem C3_capture_effect (m : Maze) (s : GameSrv.GState) (pid : Nat)
    (p : GameSrv.Player)
    (hget : aget s.players pid = some p)
    (hstate : p.state = PlayerState.active)
    (hdet : GameSrv.collisionDetected s p = true) :
    (GameSrv.collisionStep m s pid).captureCount = s.captureCount + 1 ∧
    (GameSrv.collisionStep m s pid).pacmanPosition = m.starting.pacman ∧
    (GameSrv.collisionStep m s pid).score =
      s.score + ⌊(200 : ℚ) * (3 / 2 : ℚ) ^ ((GameSrv.nearbyCount s : Int) - 1)⌋ ∧
    (1 ≤ GameSrv.nearbyCount s → GameSrv.nearbyCount s ≤ 4 →
      (((GameSrv.collisionStep m s pid).score - s.score : Int) : ℚ) =
        (200 : ℚ) * (3 / 2 : ℚ) ^ ((GameSrv.nearbyCount s : Int) - 1)) := by
  have hcap : GameSrv.collisionStep m s pid = GameSrv.ghostCapturedPacman m s := by
    simp only [GameSrv.collisionStep, hget]
    rw [if_neg (by simp [hstate]), if_pos hdet, if_neg (by simp [hstate])]
  have heff :
      (GameSrv.ghostCapturedPacman m s).captureCount = s.captureCount + 1 ∧
      (GameSrv.ghostCapturedPacman m s).pacmanPosition = m.starting.pacman ∧
      (GameSrv.ghostCapturedPacman m s).score =
        s.score + ⌊(200 : ℚ) * (3 / 2 : ℚ) ^ ((GameSrv.nearbyCount s : Int) - 1)⌋ := by
    refine ⟨rfl, rfl, ?_⟩
    rw [GameSrv.ghostCapturedPacman]
    norm_num [GHOST_CAPTURE_BASE_SCORE, MULTIPLAYER_BONUS_MULTIPLIER]
  refine ⟨hcap ▸ heff.1, hcap ▸ heff.2.1, hcap ▸ heff.2.2, ?_⟩
  intro h1 h4
  rw [hcap, heff.2.2]
  have : s.score + ⌊(200 : ℚ) * (3 / 2 : ℚ) ^ ((GameSrv.nearbyCount s : Int) - 1)⌋ - s.score
      = ⌊(200 : ℚ) * (3 / 2 : ℚ) ^ ((GameSrv.nearbyCount s : Int) - 1)⌋ := by ring
  rw [this]
  interval_cases h : GameSrv.nearbyCount s <;> norm_num

/-- Counterexample for C3 as stated: in `cexState` an active ghost collides by
swapping with Pac-Man across a long teleport; no player is within Manhattan
distance 3 of the capture site (`nearby = 0`), the code adds
`⌊200 · 1.5^(−1)⌋ = 133` to the score, and `133` is not equal to the claimed
exact award `200 · 1.5^(nearby−1) = 400/3`. -/
theorem C3_cex :
    GameSrv.collisionDetected cexState w3Player = true ∧
    w3Player.state = PlayerState.active ∧
    GameSrv.nearbyCount cexState = 0 ∧
    (GameSrv.collisionStep wMaze cexState 0).score - cexState.score = 133 ∧
    ((133 : ℚ) ≠
      (200 : ℚ) * (3 / 2 : ℚ) ^ ((GameSrv.nearbyCount cexState : Int) - 1)) := by
  have h0 : GameSrv.nearbyCount cexState = 0 := by decide
  refine ⟨by decide, by decide, h0, ?_, ?_⟩
  · have hget : aget cexState.players 0 = some w3Player := by decide
    have hdet : GameSrv.collisionDetected cexState w3Player = true := by decide
    have hcap : GameSrv.collisionStep wMaze cexState 0 =
        GameSrv.ghostCapturedPacman wMaze cexState := by
      simp only [GameSrv.collisionStep, hget]
      rw [if_neg (by simp [w3Player, wPlayer]), if_pos hdet,
        if_neg (by simp [w3Player, wPlayer])]
    rw [hcap]
    simp only [GameSrv.ghostCapturedPacman, h0]
    norm_num [GHOST_CAPTURE_BASE_SCORE, MULTIPLAYER_BONUS_MULTIPLIER]
  · rw [h0]
    norm_num

/-- Witness for C3: a same-cell capture with a single nearby player awards
exactly `200 · 1.5^0 = 200` points, one capture, and resets Pac-Man. -/
theorem C3_witness :
    (GameSrv.collisionStep wMaze w3State 0).captureCount = w3State.captureCount + 1 ∧
    (GameSrv.collisionStep wMaze w3State 0).pacmanPosition = wMaze.starting.pacman ∧
    (GameSrv.collisionStep wMaze w3State 0).score =
      w3State.score + ⌊(200 : ℚ) * (3 / 2 : ℚ) ^ ((GameSrv.nearbyCount w3State : Int) - 1)⌋ ∧
    (1 ≤ GameSrv.nearbyCount w3State → GameSrv.nearbyCount w3State ≤ 4 →
      (((GameSrv.collisionStep wMaze w3State 0).score - w3State.score : Int) : ℚ) =
        (200 : ℚ) * (3 / 2 : ℚ) ^ ((GameSrv.nearbyCount w3State : Int) - 1)) :=
  C3_capture_effect wMaze w3State 0 w3Player (by decide) rfl (by decide)

/-- C8: removing a dot is idempotent within a tick: if a first dot-collision
check at `(x, y)` removed the dot there (adding `DOT_VALUE` to the score and
raising `dotsChanged`), a second check at the same cell is the identity, so
two same-tick attempts yield exactly one score increment. -/
theorem C8_dot_removal_idempotent (x y : Int) (s : GameSrv.GState)
    (h : (x, y) ∈ s.dotSet) :
    (GameSrv.checkDotCollision x y s).score = s.score + DOT_VALUE ∧
    (x, y) ∉ (GameSrv.checkDotCollision x y s).dotSet ∧
    (GameSrv.checkDotCollision x y s).dotsChanged = true ∧
    GameSrv.checkDotCollision x y (GameSrv.checkDotCollision x y s) =
      GameSrv.checkDotCollision x y s := by
  have h1 : GameSrv.checkDotCollision x y s =
      { s with
        dotSet := s.dotSet.filter (fun k => decide (k ≠ (x, y)))
        dots := s.dots.eraseP (fun d => decide (d.x = x ∧ d.y = y))
        score := s.score + DOT_VALUE
        dotsChanged := true } := by
    rw [GameSrv.checkDotCollision, if_pos h]
  have hnot : (x, y) ∉ s.dotSet.filter (fun k => decide (k ≠ (x, y))) := by
    intro hmem
    have := (List.mem_filter.mp hmem).2
    simp at this
  refine ⟨by rw [h1], by rw [h1]; exact hnot, by rw [h1], ?_⟩
  rw [h1, GameSrv.checkDotCollision, if_neg hnot]

/-- Witness for C8: eating the dot at `(5, 0)` in `wState` adds 10 points
once; the second same-tick check is a no-op. -/
theorem C8_witness :
    (GameSrv.checkDotCollision 5 0 wState).score = wState.score + DOT_VALUE ∧
    (5, 0) ∉ (GameSrv.checkDotCollision 5 0 wState).dotSet ∧
    (GameSrv.checkDotCollision 5 0 wState).dotsChanged = true ∧
    GameSrv.checkDotCollision 5 0 (GameSrv.checkDotCollision 5 0 wState) =
      GameSrv.checkDotCollision 5 0 wState :=
  C8_dot_removal_idempotent 5 0 wState (by decide)

/-- C10: `joinRoom` validates in the fixed order room-not-found, game-already-
started, room-full, ghost-taken; every failing check returns the matching
error and leaves both the room map and the player-to-room index unchanged;
only a successful join adds the player to the room and creates the index
entry. -/
theorem C10_joinRoom_validation (m : Maze) (st : GMgr.MState)
    (roomCode socketId username : Nat) (ghostType : GhostType) :
    (∀ r st', GMgr.joinRoom m st roomCode socketId username ghostType =
        (GMgr.JoinResult.err r, st') → st' = st) ∧
    (aget st.games roomCode = none →
      GMgr.joinRoom m st roomCode socketId username ghostType =
        (GMgr.JoinResult.err .roomNotFound, st)) ∧
    (∀ g, aget st.games roomCode = some g → g.isStarted = true →
      GMgr.joinRoom m st roomCode socketId username ghostType =
        (GMgr.JoinResult.err .gameAlreadyStarted, st)) ∧
    (∀ g, aget st.games roomCode = some g → g.isStarted = false →
      GameSrv.isFull g = true →
      GMgr.joinRoom m st roomCode socketId username ghostType =
        (GMgr.JoinResult.err .roomIsFull, st)) ∧
    (∀ g, aget st.games roomCode = some g → g.isStarted = false →
      GameSrv.isFull g = false → GameSrv.isGhostTaken ghostType g = true →
      GMgr.joinRoom m st roomCode socketId username ghostType =
        (GMgr.JoinResult.err .ghostAlreadyTaken, st)) ∧
    (∀ g, aget st.games roomCode = some g → g.isStarted = false →
      GameSrv.isFull g = false → GameSrv.isGhostTaken ghostType g = false →
      GMgr.joinRoom m st roomCode socketId username ghostType =
        (GMgr.JoinResult.ok,
          { games := aset st.games roomCode
              (GameSrv.addPlayer m socketId username ghostType g)
            playerRooms := aset st.playerRooms socketId roomCode })) := by
  refine ⟨?_, ?_, ?_, ?_, ?_, ?_⟩
  · intro r st' hj
    rcases hg : aget st.games roomCode with _ | g
    · simp only [GMgr.joinRoom, hg] at hj
      exact (congrArg Prod.snd hj).symm
    · simp only [GMgr.joinRoom, hg] at hj
      split_ifs at hj
      · exact (congrArg Prod.snd hj).symm
      · exact (congrArg Prod.snd hj).symm
      · exact (congrArg Prod.snd hj).symm
      · exact absurd (congrArg Prod.fst hj) (by simp)
  · intro hg
    simp only [GMgr.joinRoom, hg]
  · intro g hg h1
    simp only [GMgr.joinRoom, hg, h1, if_true]
  · intro g hg h1 h2
    simp only [GMgr.joinRoom, hg, h1, h2, Bool.false_eq_true, if_false, if_true]
  · intro g hg h1 h2 h3
    simp only [GMgr.joinRoom, hg, h1, h2, h3, Bool.false_eq_true, if_false, if_true]
  · intro g hg h1 h2 h3
    simp only [GMgr.joinRoom, hg, h1, h2, h3, Bool.false_eq_true, if_false]

/-- A registry holding one empty, not-started room with code 7. -/
def wRegistry : GMgr.MState where
  games := [(7, GameSrv.initialState wMaze)]
  playerRooms := []

/-- Witness for C10: joining a missing room errors and changes nothing;
joining the empty room 7 succeeds and registers the player. -/
theorem C10_witness :
    GMgr.joinRoom wMaze wRegistry 9 1 1 GhostType.blinky =
      (GMgr.JoinResult.err .roomNotFound, wRegistry) ∧
    GMgr.joinRoom wMaze wRegistry 7 1 1 GhostType.blinky =
      (GMgr.JoinResult.ok,
        { games := aset wRegistry.games 7
            (GameSrv.addPlayer wMaze 1 1 GhostType.blinky (GameSrv.initialState wMaze))
          playerRooms := aset wRegistry.playerRooms 1 7 }) :=
  ⟨(C10_joinRoom_validation wMaze wRegistry 9 1 1 GhostType.blinky).2.1 (by decide),
   (C10_joinRoom_validation wMaze wRegistry 7 1 1 GhostType.blinky).2.2.2.2.2
     (GameSrv.initialState wMaze) (by decide) rfl rfl rfl⟩

/- C4: the walkability invariant over reachable room states. -/

namespace GameSrv

/-- Every agent position (Pac-Man and all players) is on a walkable cell. -/
def AllWalkable (m : Maze) (s : GState) : Prop :=
  isWalkable m s.pacmanPosition.x s.pacmanPosition.y = true ∧
  ∀ e ∈ s.players, isWalkable m e.2.position.x e.2.position.y = true

/-- The maze-data facts the invariant rests on (all stated by the spec:
starting cells, the ghost house and teleport exits are walkable). -/
structure MazeOK (m : Maze) : Prop where
  pacman : isWalkable m m.starting.pacman.x m.starting.pacman.y = true
  ghostHouse : isWalkable m m.starting.ghostHouse.x m.starting.ghostHouse.y = true
  ghosts : ∀ g : GhostType,
    isWalkable m (m.starting.ofGhost g).x (m.starting.ofGhost g).y = true
  teleExits : ∀ t ∈ m.teleports, isWalkable m t.exit.x t.exit.y = true

/-- One transition of a room: the operations of the tick procedure plus the
externally triggered operations (timers, inputs, joins, leaves). -/
inductive Step (m : Maze) : GState → GState → Prop where
  | snapshot {s : GState} : Step m s (snapshotPositions s)
  | collide {s : GState} : Step m s (checkCollisions m s)
  | pacmanMove {s : GState} (now : Int) (dir : Direction) :
      Step m s (movePacmanWith m now dir s)
  | ghostMove {s : GState} (pid : Nat) : Step m s (moveGhost m pid s)
  | input {s : GState} (pid : Nat) (dir : Direction) :
      Step m s (handlePlayerInput pid dir s)
  | join {s : GState} (pid uname : Nat) (g : GhostType) :
      Step m s (addPlayer m pid uname g s)
  | leave {s : GState} (pid : Nat) : Step m s (removePlayer pid s)
  | respawn {s : GState} (pid : Nat) : Step m s (respawnTimerFire m pid s)
  | frightEnd {s : GState} : Step m s (frightenedTimerFire s)
  | gameOver {s : GState} : Step m s (checkGameOver s)

/-- Reachable room states: the freshly constructed room closed under `Step`. -/
inductive Reaches (m : Maze) : GState → Prop where
  | init : Reaches m (initialState m)
  | step {s s' : GState} : Reaches m s → Step m s s' → Reaches m s'

theorem mem_aset {κ α : Type} [DecidableEq κ] {l : List (κ × α)} {k : κ} {v : α} :
    ∀ e ∈ aset l k v, e.2 = v ∨ e ∈ l := by
  intro e he
  rw [aset] at he
  split_ifs at he
  · obtain ⟨a, ha, hfa⟩ := List.mem_map.mp he
    by_cases hk : a.1 = k
    · rw [if_pos hk] at hfa; left; rw [← hfa]
    · rw [if_neg hk] at hfa; right; rw [← hfa]; exact ha
  · rcases List.mem_append.mp he with h | h
    · right; exact h
    · left
      rcases List.mem_singleton.mp h with rfl
      rfl

theorem allWalkable_aset_players (m : Maze) (s : GState) (h : AllWalkable m s)
    (pid : Nat) (v : Player) (hv : isWalkable m v.position.x v.position.y = true) :
    AllWalkable m { s with players := aset s.players pid v } := by
  refine ⟨h.1, ?_⟩
  intro e he
  rcases mem_aset e he with hev | hel
  · rw [hev]; exact hv
  · exact h.2 e hel

theorem checkTeleport_exit_walkable (m : Maze) (hM : MazeOK m) (p ex : Position)
    (h : checkTeleport m p = some ex) : isWalkable m ex.x ex.y = true := by
  rw [checkTeleport] at h
  rcases hf : m.teleports.find? (fun t => decide (p.x = t.entry.x ∧ p.y = t.entry.y)) with _ | t
  · rw [hf] at h; simp at h
  · rw [hf] at h
    have : t.exit = ex := by simpa using h
    rw [← this]
    exact hM.teleExits t (List.mem_of_find?_eq_some hf)

theorem checkDotCollision_preserves (m : Maze) (x y : Int) (s : GState)
    (h : AllWalkable m s) : AllWalkable m (checkDotCollision x y s) := by
  rw [checkDotCollision]
  split_ifs
  · exact ⟨h.1, h.2⟩
  · exact h

theorem activateFrightenedMode_preserves (m : Maze) (now : Int) (s : GState)
    (h : AllWalkable m s) : AllWalkable m (activateFrightenedMode now s) := by
  refine ⟨h.1, ?_⟩
  intro e he
  obtain ⟨a, ha, hfa⟩ := List.mem_map.mp he
  have hpos : e.2.position = a.2.position := by
    rw [← hfa]; split_ifs <;> rfl
  rw [hpos]
  exact h.2 a ha

theorem checkPowerPelletCollision_preserves (m : Maze) (now x y : Int) (s : GState)
    (h : AllWalkable m s) : AllWalkable m (checkPowerPelletCollision now x y s) := by
  rw [checkPowerPelletCollision]
  split_ifs
  · exact activateFrightenedMode_preserves m now _ ⟨h.1, h.2⟩
  · exact h

theorem movePacmanWith_preserves (m : Maze) (hM : MazeOK m) (now : Int)
    (dir : Direction) (s : GState) (h : AllWalkable m s) :
    AllWalkable m (movePacmanWith m now dir s) := by
  simp only [movePacmanWith]
  by_cases hw : isWalkable m (s.pacmanPosition.x + (dirVec dir).x)
      (s.pacmanPosition.y + (dirVec dir).y) = true
  · rw [if_pos hw]
    rcases hct : checkTeleport m
        ⟨s.pacmanPosition.x + (dirVec dir).x, s.pacmanPosition.y + (dirVec dir).y⟩
      with _ | ex
    · refine checkPowerPelletCollision_preserves m now _ _ _
        (checkDotCollision_preserves m _ _ _ ⟨hw, h.2⟩)
    · refine checkPowerPelletCollision_preserves m now _ _ _
        (checkDotCollision_preserves m _ _ _
          ⟨checkTeleport_exit_walkable m hM _ ex hct, h.2⟩)
  · rw [if_neg hw]
    exact ⟨h.1, h.2⟩

theorem adoptBuffer_position (m : Maze) (player : Player) :
    (adoptBuffer m player).position = player.position := by
  rw [adoptBuffer]
  rcases player.intendedDirection with _ | d
  · rfl
  · dsimp only
    split_ifs <;> rfl

theorem ghostStep_position_walkable (m : Maze) (hM : MazeOK m) (player : Player)
    (h : isWalkable m player.position.x player.position.y = true) :
    isWalkable m (ghostStep m player).position.x (ghostStep m player).position.y = true := by
  rw [ghostStep]
  dsimp only
  split_ifs with hw
  · rcases hct : checkTeleport m
        ⟨player.position.x + (dirVec player.direction).x,
         player.position.y + (dirVec player.direction).y⟩ with _ | ex
    · simpa [hct] using hw
    · simpa [hct] using checkTeleport_exit_walkable m hM _ ex hct
  · exact h

theorem moveGhost_preserves (m : Maze) (hM : MazeOK m) (pid : Nat) (s : GState)
    (h : AllWalkable m s) : AllWalkable m (moveGhost m pid s) := by
  rw [moveGhost]
  rcases hg : aget s.players pid with _ | player
  · exact h
  · have hpw : isWalkable m player.position.x player.position.y = true := by
      obtain ⟨e, he, -, h2⟩ := aget_mem hg
      rw [← h2]; exact h.2 e he
    refine allWalkable_aset_players m s h pid _ ?_
    refine ghostStep_position_walkable m hM _ ?_
    rw [adoptBuffer_position]
    exact hpw

theorem respawnGhost_preserves (m : Maze) (hM : MazeOK m) (pid : Nat) (s : GState)
    (h : AllWalkable m s) : AllWalkable m (respawnGhost m pid s) := by
  rw [respawnGhost]
  rcases hg : aget s.players pid with _ | player
  · exact h
  · refine ⟨h.1, ?_⟩
    intro e he
    rcases mem_aset e he with hev | hel
    · rw [hev]; exact hM.ghostHouse
    · exact h.2 e hel

theorem ghostCapturedPacman_preserves (m : Maze) (hM : MazeOK m) (s : GState)
    (h : AllWalkable m s) : AllWalkable m (ghostCapturedPacman m s) :=
  ⟨hM.pacman, h.2⟩

theorem collisionStep_preserves (m : Maze) (hM : MazeOK m) (s : GState) (pid : Nat)
    (h : AllWalkable m s) : AllWalkable m (collisionStep m s pid) := by
  rw [collisionStep]
  rcases hg : aget s.players pid with _ | player
  · exact h
  · dsimp only
    split_ifs
    · exact h
    · exact respawnGhost_preserves m hM pid s h
    · exact ghostCapturedPacman_preserves m hM s h
    · exact h

theorem checkCollisions_preserves (m : Maze) (hM : MazeOK m) (s : GState)
    (h : AllWalkable m s) : AllWalkable m (checkCollisions m s) := by
  rw [checkCollisions]
  generalize (s.players.map Prod.fst) = l
  induction l generalizing s with
  | nil => exact h
  | cons a l ih =>
    exact ih (collisionStep m s a) (collisionStep_preserves m hM s a h)

theorem respawnTimerFire_preserves (m : Maze) (hM : MazeOK m) (pid : Nat)
    (s : GState) (h : AllWalkable m s) : AllWalkable m (respawnTimerFire m pid s) := by
  rw [respawnTimerFire]
  rcases hg : aget s.players pid with _ | player
  · exact h
  · refine ⟨h.1, ?_⟩
    intro e he
    rcases mem_aset e he with hev | hel
    · rw [hev]; exact hM.ghosts player.ghostType
    · exact h.2 e hel

theorem frightenedTimerFire_preserves (m : Maze) (s : GState)
    (h : AllWalkable m s) : AllWalkable m (frightenedTimerFire s) := by
  refine ⟨h.1, ?_⟩
  intro e he
  obtain ⟨a, ha, hfa⟩ := List.mem_map.mp he
  have hpos : e.2.position = a.2.position := by
    rw [← hfa]; split_ifs <;> rfl
  rw [hpos]
  exact h.2 a ha

theorem handlePlayerInput_preserves (m : Maze) (pid : Nat) (dir : Direction)
    (s : GState) (h : AllWalkable m s) : AllWalkable m (handlePlayerInput pid dir s) := by
  rw [handlePlayerInput]
  rcases hg : aget s.players pid with _ | player
  · exact h
  · dsimp only
    split_ifs
    · refine ⟨h.1, ?_⟩
      intro e he
      rcases mem_aset e he with hev | hel
      · obtain ⟨e', he', -, h2⟩ := aget_mem hg
        rw [hev, ← h2]
        exact h.2 e' he'
      · exact h.2 e hel
    · exact h

theorem addPlayer_preserves (m : Maze) (hM : MazeOK m) (pid uname : Nat)
    (g : GhostType) (s : GState) (h : AllWalkable m s) :
    AllWalkable m (addPlayer m pid uname g s) := by
  refine ⟨h.1, ?_⟩
  intro e he
  rcases mem_aset e he with hev | hel
  · rw [hev]; exact hM.ghosts g
  · exact h.2 e hel

theorem removePlayer_preserves (m : Maze) (pid : Nat) (s : GState)
    (h : AllWalkable m s) : AllWalkable m (removePlayer pid s) := by
  refine ⟨h.1, ?_⟩
  intro e he
  exact h.2 e (List.mem_of_mem_filter he)

theorem snapshotPositions_preserves (m : Maze) (s : GState)
    (h : AllWalkable m s) : AllWalkable m (snapshotPositions s) :=
  ⟨h.1, h.2⟩

theorem checkGameOver_preserves (m : Maze) (s : GState)
    (h : AllWalkable m s) : AllWalkable m (checkGameOver s) := by
  rw [checkGameOver]
  split_ifs
  · exact ⟨h.1, h.2⟩
  · exact ⟨h.1, h.2⟩
  · exact h

end GameSrv

/-- C4: in every reachable room state every agent position (Pac-Man's and
every player's) is a walkable cell, provided the maze data is as the spec
states it (starting cells, ghost house and teleport exits walkable): each
move applies only to walkable targets, blocked agents stay, and every
respawn/reset destination is walkable. -/
theorem C4_positions_walkable (m : Maze) (hM : GameSrv.MazeOK m)
    (s : GameSrv.GState) (hr : GameSrv.Reaches m s) : GameSrv.AllWalkable m s := by
  induction hr with
  | init =>
    refine ⟨hM.pacman, ?_⟩
    intro e he
    have hnil : (GameSrv.initialState m).players = [] := rfl
    rw [hnil] at he
    exact absurd he (List.not_mem_nil e)
  | step hr hstep ih =>
    cases hstep with
    | snapshot => exact GameSrv.snapshotPositions_preserves m _ ih
    | collide => exact GameSrv.checkCollisions_preserves m hM _ ih
    | pacmanMove now dir => exact GameSrv.movePacmanWith_preserves m hM now dir _ ih
    | ghostMove pid => exact GameSrv.moveGhost_preserves m hM pid _ ih
    | input pid dir => exact GameSrv.handlePlayerInput_preserves m pid dir _ ih
    | join pid uname g => exact GameSrv.addPlayer_preserves m hM pid uname g _ ih
    | leave pid => exact GameSrv.removePlayer_preserves m pid _ ih
    | respawn pid => exact GameSrv.respawnTimerFire_preserves m hM pid _ ih
    | frightEnd => exact GameSrv.frightenedTimerFire_preserves m _ ih
    | gameOver => exact GameSrv.checkGameOver_preserves m _ ih

/-- Witness for C4: on the concrete maze, after a join, a tick snapshot, a
Pac-Man move and a ghost move, all agents are still on walkable cells. -/
theorem C4_witness :
    GameSrv.AllWalkable wMaze
      (GameSrv.moveGhost wMaze 0
        (GameSrv.movePacmanWith wMaze 0 Direction.RIGHT
          (GameSrv.snapshotPositions
            (GameSrv.addPlayer wMaze 0 0 GhostType.blinky
              (GameSrv.initialState wMaze))))) :=
  C4_positions_walkable wMaze
    ⟨by decide, by decide, by intro g; cases g <;> decide,
     by intro t ht; exact absurd ht (List.not_mem_nil t)⟩
    _
    ((((GameSrv.Reaches.init.step (GameSrv.Step.join 0 0 GhostType.blinky)).step
        GameSrv.Step.snapshot).step
        (GameSrv.Step.pacmanMove 0 Direction.RIGHT)).step
        (GameSrv.Step.ghostMove 0))

/- PacmanBrain (src/server/PacmanBrain.ts, first document): the defensive
bounded-depth predictive-lookahead brain. -/

/-- A JavaScript `number` as used by the brain's scoring: an exact rational,
one of the infinities, or NaN.  (Float literals such as `0.05` and rounding
are modelled exactly in ℚ; the brain's comparisons in the proved statements
never sit on a rounding boundary.) -/
inductive JNum where
  | nan
  | ninf
  | pinf
  | fin (q : ℚ)
deriving DecidableEq, Repr

namespace JNum

/-- JS unary minus. -/
def neg : JNum → JNum
  | nan => nan
  | ninf => pinf
  | pinf => ninf
  | fin q => fin (-q)

/-- JS `+` on numbers (∞ − ∞ is NaN). -/
def add : JNum → JNum → JNum
  | nan, _ => nan
  | _, nan => nan
  | ninf, pinf => nan
  | pinf, ninf => nan
  | ninf, _ => ninf
  | _, ninf => ninf
  | pinf, _ => pinf
  | _, pinf => pinf
  | fin a, fin b => fin (a + b)

/-- JS `-` (`x - y = x + (-y)` exactly). -/
def sub (a b : JNum) : JNum := add a (neg b)

/-- JS `*` (0 · ∞ is NaN). -/
def mul : JNum → JNum → JNum
  | nan, _ => nan
  | _, nan => nan
  | pinf, pinf => pinf
  | pinf, ninf => ninf
  | ninf, pinf => ninf
  | ninf, ninf => pinf
  | pinf, fin q => if 0 < q then pinf else if q < 0 then ninf else nan
  | fin q, pinf => if 0 < q then pinf else if q < 0 then ninf else nan
  | ninf, fin q => if 0 < q then ninf else if q < 0 then pinf else nan
  | fin q, ninf => if 0 < q then ninf else if q < 0 then pinf else nan
  | fin a, fin b => fin (a * b)

/-- JS `<` (false whenever NaN is involved). -/
def lt : JNum → JNum → Bool
  | nan, _ => false
  | _, nan => false
  | ninf, ninf => false
  | ninf, _ => true
  | pinf, _ => false
  | fin _, ninf => false
  | fin _, pinf => true
  | fin a, fin b => decide (a < b)

/-- JS `<=` (false whenever NaN is involved). -/
def le : JNum → JNum → Bool
  | nan, _ => false
  | _, nan => false
  | ninf, _ => true
  | _, pinf => true
  | pinf, _ => false
  | fin _, ninf => false
  | fin a, fin b => decide (a ≤ b)

/-- `Math.abs`. -/
def jabs : JNum → JNum
  | nan => nan
  | ninf => pinf
  | pinf => pinf
  | fin q => fin |q|

/-- `Math.max` on two values (NaN-propagating). -/
def jmax (a b : JNum) : JNum :=
  match a, b with
  | nan, _ => nan
  | _, nan => nan
  | x, y => if lt x y then y else x

end JNum

namespace Brain

/-- `interface Ghost` of PacmanBrain.ts. -/
structure Ghost where
  position : Position
  direction : Direction
  isFrightened : Bool
deriving DecidableEq, Repr

/-- `interface HeuristicWeights` (float weights, modelled in ℚ). -/
structure HeuristicWeights where
  GHOST_DANGER : ℚ
  CHOKE_POINT_DANGER : ℚ
  OPEN_SPACE_BONUS : ℚ
  FRIGHTENED_BONUS : ℚ
  POWER_PELLET_URGENCY : ℚ
  PROGRESS_BONUS : ℚ
  DISTANCE_PENALTY : ℚ
  EXPLORATION_BONUS : ℚ

/-- The constructor's ultra-defensive default weights. -/
def defaultWeights : HeuristicWeights where
  GHOST_DANGER := -2500
  CHOKE_POINT_DANGER := -800
  OPEN_SPACE_BONUS := 80
  FRIGHTENED_BONUS := 1200
  POWER_PELLET_URGENCY := 6000
  PROGRESS_BONUS := 200
  DISTANCE_PENALTY := -3
  EXPLORATION_BONUS := 150

/-- The constructor / `setSearchDepth` clamp `Math.max(1, Math.min(depth, 20))`. -/
def clampSearchDepth (depth : Int) : Nat :=
  (max 1 (min depth 20)).toNat

/-- The direction array `['UP', 'DOWN', 'LEFT', 'RIGHT']` used by the brain's
loops. -/
def directions : List Direction := [.UP, .DOWN, .LEFT, .RIGHT]

/-- `Math.min` over a non-empty array (`Math.min(...list)`); every call site
guards non-emptiness, the `[]` value is arbitrary. -/
def listMin : List Int → Int
  | [] => 0
  | x :: xs => xs.foldl min x

/-- `heuristic(a, b)`: Manhattan distance, taking a one-step teleport shortcut
into account (`minTeleportDist` starts at `Infinity`, modelled by `none`). -/
def heuristic (m : Maze) (a b : Position) : Int :=
  let directDist := |a.x - b.x| + |a.y - b.y|
  let minTeleportDist : Option Int :=
    m.teleports.foldl (fun acc t =>
      let teleportDist :=
        (|a.x - t.entry.x| + |a.y - t.entry.y|) + 1 + (|t.exit.x - b.x| + |t.exit.y - b.y|)
      match acc with
      | none => some teleportDist
      | some v => some (min v teleportDist)) none
  match minTeleportDist with
  | none => directDist
  | some v => min directDist v

/-- `checkTeleport(pos)` (brain copy). -/
def checkTeleport (m : Maze) (pos : Position) : Option Position :=
  (m.teleports.find? (fun t => decide (pos.x = t.entry.x ∧ pos.y = t.entry.y))).map (·.exit)

/-- `getPositionFromMove(pos, direction)`: one step plus teleport. -/
def getPositionFromMove (m : Maze) (pos : Position) (direction : Direction) : Position :=
  let dv := dirVec direction
  let newPos : Position := ⟨pos.x + dv.x, pos.y + dv.y⟩
  match checkTeleport m newPos with
  | some exitPos => exitPos
  | none => newPos

/-- `PacmanBrain.isWalkable(pos)`: inside the 28×35 grid, the row exists and
the cell is not 0 (a missing column inside the row reads `undefined !== 0`,
hence walkable). -/
def isWalkable (m : Maze) (pos : Position) : Bool :=
  if pos.x < 0 ∨ pos.x ≥ GRID_WIDTH ∨ pos.y < 0 ∨ pos.y ≥ GRID_HEIGHT then false
  else
    match m.layout.get? pos.y.toNat with
    | none => false
    | some row => decide (row.get? pos.x.toNat ≠ some 0)

/-- `checkTerminalState`: `+∞` when no food remains (win), `-∞` when a
non-frightened ghost is within heuristic distance 1, else `null`. -/
def checkTerminalState (m : Maze) (pacmanPos : Position) (ghosts : List Ghost)
    (dots powerPellets : List Position) : Option JNum :=
  if dots.length = 0 ∧ powerPellets.length = 0 then some .pinf
  else if ghosts.any (fun g => !g.isFrightened && decide (heuristic m pacmanPos g.position ≤ 1)) then
    some .ninf
  else none

/-- `calculateGhostDanger`. -/
def calculateGhostDanger (m : Maze) (w : HeuristicWeights) (pacmanPos : Position)
    (ghosts : List Ghost) : ℚ :=
  let nonFrightenedGhosts := ghosts.filter (fun g => !g.isFrightened)
  if nonFrightenedGhosts.isEmpty then 0
  else
    let minGhostDist := listMin (nonFrightenedGhosts.map (fun g => heuristic m pacmanPos g.position))
    w.GHOST_DANGER / ((minGhostDist : ℚ) + 1)

/-- `calculateProgressScore`. -/
def calculateProgressScore (w : HeuristicWeights) (dots powerPellets : List Position)
    (initialDotCount : Int) : ℚ :=
  let currentFoodCount : Int := dots.length + powerPellets.length
  let foodEaten := initialDotCount - currentFoodCount
  (foodEaten : ℚ) * w.PROGRESS_BONUS

/-- `calculateFrightenedGhostBonus`. -/
def calculateFrightenedGhostBonus (m : Maze) (w : HeuristicWeights) (pacmanPos : Position)
    (ghosts : List Ghost) : ℚ :=
  let frightenedGhosts := ghosts.filter (fun g => g.isFrightened)
  if frightenedGhosts.isEmpty then 0
  else
    let minFrightenedDist := listMin (frightenedGhosts.map (fun g => heuristic m pacmanPos g.position))
    w.FRIGHTENED_BONUS / ((minFrightenedDist : ℚ) + 1)

/-- `calculateDistanceToFoodScore`. -/
def calculateDistanceToFoodScore (m : Maze) (w : HeuristicWeights) (pacmanPos : Position)
    (dots powerPellets : List Position) : ℚ :=
  let allFood := dots ++ powerPellets
  if allFood.isEmpty then 0
  else
    let minFoodDist := listMin (allFood.map (fun food => heuristic m pacmanPos food))
    (minFoodDist : ℚ) * w.DISTANCE_PENALTY

/-- `calculateExplorationBonus`. -/
def calculateExplorationBonus (m : Maze) (w : HeuristicWeights) (pacmanPos : Position)
    (dots powerPellets : List Position) (ghosts : List Ghost) : ℚ :=
  let allFood := dots ++ powerPellets
  let nearbyPellets := allFood.filter (fun food => decide (heuristic m pacmanPos food ≤ 6))
  if ¬ nearbyPellets.isEmpty then 0
  else
    let nonFrightenedGhosts := ghosts.filter (fun g => !g.isFrightened)
    if ¬ nonFrightenedGhosts.isEmpty then
      let minGhostDist := listMin (nonFrightenedGhosts.map (fun g => heuristic m pacmanPos g.position))
      if minGhostDist > 8 then w.EXPLORATION_BONUS else 0
    else w.EXPLORATION_BONUS

/-- `calculatePowerPelletUrgency`. -/
def calculatePowerPelletUrgency (m : Maze) (w : HeuristicWeights) (pacmanPos : Position)
    (ghosts : List Ghost) (powerPellets : List Position) : ℚ :=
  let isOnPellet := powerPellets.any (fun p => decide (p.x = pacmanPos.x ∧ p.y = pacmanPos.y))
  if ¬ isOnPellet then 0
  else
    let nonFrightenedGhosts := ghosts.filter (fun g => !g.isFrightened)
    if nonFrightenedGhosts.isEmpty then 0
    else
      let minGhostDist := listMin (nonFrightenedGhosts.map (fun g => heuristic m pacmanPos g.position))
      if minGhostDist < 8 then w.POWER_PELLET_URGENCY / ((minGhostDist : ℚ) + 1) else 0

/-- The BFS fuel bound for `calculateEscapeRouteValue`: pops are bounded by
pushes, which are bounded by the number of distinct walkable cells (at most
28·35), so 2000 iterations always suffice and the 0 case is unreachable. -/
def BFS_FUEL : Nat := 2000

/-- The `while (queue.length > 0)` loop of `calculateEscapeRouteValue`. -/
def escapeLoop (m : Maze) (nonFrightenedGhosts : List Ghost) :
    Nat → List (Position × Nat) → List Position → Nat → Nat
  | 0, _, _, reachableTiles => reachableTiles
  | _ + 1, [], _, reachableTiles => reachableTiles
  | fuel + 1, (pos, depth) :: queue, visited, reachableTiles =>
    if depth ≥ 6 then escapeLoop m nonFrightenedGhosts fuel queue visited reachableTiles
    else
      let qv := directions.foldl (fun (qv : List (Position × Nat) × List Position) dir =>
        let nextPos := getPositionFromMove m pos dir
        if isWalkable m nextPos ∧ nextPos ∉ qv.2 then
          if nonFrightenedGhosts.all (fun g => decide (heuristic m nextPos g.position > 3)) then
            (qv.1 ++ [(nextPos, depth + 1)], qv.2 ++ [nextPos])
          else qv
        else qv) (queue, visited)
      escapeLoop m nonFrightenedGhosts fuel qv.1 qv.2 (reachableTiles + 1)

/-- `calculateEscapeRouteValue`: BFS to depth 6 counting reachable tiles that
stay more than 3 away from every non-frightened ghost. -/
def calculateEscapeRouteValue (m : Maze) (startPos : Position) (ghosts : List Ghost) : Nat :=
  let nonFrightenedGhosts := ghosts.filter (fun g => !g.isFrightened)
  escapeLoop m nonFrightenedGhosts BFS_FUEL [(startPos, 0)] [startPos] 0

/-- `calculatePositionalAdvantage`. -/
def calculatePositionalAdvantage (m : Maze) (w : HeuristicWeights) (pacmanPos : Position)
    (ghosts : List Ghost) : ℚ :=
  (calculateEscapeRouteValue m pacmanPos ghosts : ℚ) * w.OPEN_SPACE_BONUS

/-- `calculateExits`. -/
def calculateExits (m : Maze) (pos : Position) : Nat :=
  (directions.filter (fun dir => isWalkable m (getPositionFromMove m pos dir))).length

/-- `calculateChokePointDanger`: scan the 14×14 window (x and y from
`pac - 7` inclusive to `pac + 7` exclusive) for walkable intersections with
more than 2 exits. -/
def calculateChokePointDanger (m : Maze) (w : HeuristicWeights) (pacmanPos : Position)
    (ghosts : List Ghost) : ℚ :=
  let nonFrightenedGhosts := ghosts.filter (fun g => !g.isFrightened)
  if nonFrightenedGhosts.isEmpty then 0
  else
    ((List.range 14).flatMap (fun i =>
      (List.range 14).map (fun j =>
        (⟨pacmanPos.x - 7 + (i : Int), pacmanPos.y - 7 + (j : Int)⟩ : Position)))).foldl
      (fun totalDanger pos =>
        if isWalkable m pos ∧ calculateExits m pos > 2 then
          let distToGhost := listMin (nonFrightenedGhosts.map (fun g => heuristic m pos g.position))
          totalDanger + w.CHOKE_POINT_DANGER / ((distToGhost : ℚ) + 1)
        else totalDanger) 0

/-- `evaluateState`: terminal check first, then the tier-1 components, plus
the tier-2 expensive components when requested. -/
def evaluateState (m : Maze) (w : HeuristicWeights) (pacmanPos : Position)
    (ghosts : List Ghost) (dots powerPellets : List Position) (initialDotCount : Int)
    (includeExpensiveHeuristics : Bool) : JNum :=
  match checkTerminalState m pacmanPos ghosts dots powerPellets with
  | some terminalValue => terminalValue
  | none =>
    let score : ℚ :=
      calculateGhostDanger m w pacmanPos ghosts +
      calculateProgressScore w dots powerPellets initialDotCount +
      calculateDistanceToFoodScore m w pacmanPos dots powerPellets +
      calculateFrightenedGhostBonus m w pacmanPos ghosts +
      calculatePowerPelletUrgency m w pacmanPos ghosts powerPellets +
      calculateExplorationBonus m w pacmanPos dots powerPellets ghosts +
      (if includeExpensiveHeuristics then
        calculatePositionalAdvantage m w pacmanPos ghosts +
        calculateChokePointDanger m w pacmanPos ghosts
      else 0)
    .fin score

/-- The loop body of `predictGhostNextMove`'s fallback scan: keep the first
strict improvement of the running minimum distance. -/
def predictScanStep (m : Maze) (gpos pacmanPos : Position) (best : Position × Int)
    (dir : Direction) : Position × Int :=
  let newPos := getPositionFromMove m gpos dir
  if isWalkable m newPos then
    let distance := heuristic m newPos pacmanPos
    if distance < best.2 then (newPos, distance) else best
  else best

/-- `predictGhostNextMove`: keep the facing when its cell is walkable and at
most 5 farther from Pac-Man; else scan UP, DOWN, LEFT, RIGHT for the walkable
step that strictly improves on the running minimum distance (starting from
the ghost's own cell). -/
def predictGhostNextMove (m : Maze) (ghost : Ghost) (pacmanPos : Position) : Position :=
  let currentDirPos := getPositionFromMove m ghost.position ghost.direction
  if isWalkable m currentDirPos ∧
      heuristic m currentDirPos pacmanPos ≤ heuristic m ghost.position pacmanPos + 5 then
    currentDirPos
  else
    (directions.foldl (predictScanStep m ghost.position pacmanPos)
      (ghost.position, heuristic m ghost.position pacmanPos)).1

end Brain

namespace Brain

/-- Association list keyed by positions (the JS maps key on the injective
string `"x,y"`). -/
def pget {α : Type} (l : List (Position × α)) (k : Position) : Option α :=
  aget l k

/-- `map.set` for position-keyed maps. -/
def pset {α : Type} (l : List (Position × α)) (k : Position) (v : α) : List (Position × α) :=
  aset l k v

/-- `Set.add` on the open set (keeps the original insertion slot). -/
def saddPos (l : List Position) (p : Position) : List Position :=
  if p ∈ l then l else l ++ [p]

/-- `Set.delete` on the open set. -/
def sdelPos (l : List Position) (p : Position) : List Position :=
  l.filter (fun q => decide (q ≠ p))

/-- The lowest-`fScore` scan over the open set in insertion order
(`lowestF` starts at `Infinity`, modelled by `none`; a missing `fScore` reads
`Infinity` and never wins the strict `<`). -/
def lowestFScan (openSet : List Position) (fScore : List (Position × Int)) : Option Position :=
  (openSet.foldl (fun (acc : Option Position × Option Int) posKey =>
    match pget fScore posKey, acc.2 with
    | none, _ => acc
    | some f, none => (some posKey, some f)
    | some f, some lowestF => if f < lowestF then (some posKey, some f) else acc)
    (none, none)).1

/-- The mutable state of the `aStar` loop. -/
structure AStarState where
  openSet : List Position
  cameFrom : List (Position × Position)
  gScore : List (Position × Int)
  fScore : List (Position × Int)

/-- The neighbor-relaxation loop of one `aStar` iteration
(`tentativeGScore = (gScore.get(current) ?? Infinity) + 1`, compared against
`gScore.get(neighbor) ?? Infinity`). -/
def expandNeighbors (m : Maze) (goal current : Position) (st : AStarState) : AStarState :=
  directions.foldl (fun st dir =>
    let neighbor := getPositionFromMove m current dir
    if ¬ isWalkable m neighbor then st
    else
      let tentativeGScore : Option Int :=
        match pget st.gScore current with
        | none => none
        | some g => some (g + 1)
      let improves : Bool :=
        match tentativeGScore, pget st.gScore neighbor with
        | none, _ => false
        | some _, none => true
        | some t, some g => decide (t < g)
      if improves then
        match tentativeGScore with
        | none => st
        | some t =>
          { openSet := saddPos st.openSet neighbor
            cameFrom := pset st.cameFrom neighbor current
            gScore := pset st.gScore neighbor t
            fScore := pset st.fScore neighbor (t + heuristic m neighbor goal) }
      else st) st

/-- Fuel bound for the `aStar` loop and path reconstruction: gScores are
nonnegative integers strictly decreasing per node re-insertion and nodes live
in the 28×35 grid, so the loop always ends well before 100000 iterations; the
0 case is unreachable. -/
def ASTAR_FUEL : Nat := 100000

/-- The `while (cameFrom.has(...))` loop of `reconstructPath` (`unshift`). -/
def reconstructGo (cameFrom : List (Position × Position)) :
    Nat → Position → List Position → List Position
  | 0, _, path => path
  | fuel + 1, current, path =>
    match pget cameFrom current with
    | none => path
    | some prev => reconstructGo cameFrom fuel prev (prev :: path)

/-- `reconstructPath(cameFrom, current)`. -/
def reconstructPath (cameFrom : List (Position × Position)) (current : Position) :
    List Position :=
  reconstructGo cameFrom ASTAR_FUEL current [current]

/-- The `while (openSet.size > 0)` loop of `aStar`: pick the lowest-f node
(FIFO tie-break via the strict scan), return the reconstruction at the goal,
else delete it and relax its neighbors.  Falling out of the loop (or a frontier
of all-`Infinity` f-scores) returns `[start]`. -/
def aStarLoop (m : Maze) (start goal : Position) : Nat → AStarState → List Position
  | 0, _ => [start]
  | fuel + 1, st =>
    if st.openSet.isEmpty then [start]
    else
      match lowestFScan st.openSet st.fScore with
      | none => [start]
      | some current =>
        if current = goal then reconstructPath st.cameFrom current
        else
          aStarLoop m start goal fuel
            (expandNeighbors m goal current { st with openSet := sdelPos st.openSet current })

/-- `aStar(start, goal)`. -/
def aStar (m : Maze) (start goal : Position) : List Position :=
  aStarLoop m start goal ASTAR_FUEL
    ⟨[start], [], [(start, 0)], [(start, heuristic m start goal)]⟩

/-- `getDirectionToPosition(from, to)`: axis with larger absolute delta wins,
ties prefer the vertical branch of the source (`else` goes to DOWN/UP). -/
def getDirectionToPosition (a b : Position) : Direction :=
  let dx := b.x - a.x
  let dy := b.y - a.y
  if |dx| > |dy| then (if dx > 0 then .RIGHT else .LEFT)
  else (if dy > 0 then .DOWN else .UP)

/-- `interface GameState` of PacmanBrain.ts (the simulation state of the
lookahead). -/
structure SimState where
  pacmanPos : Position
  previousPacmanPos : Position
  ghosts : List Ghost
  dots : List Position
  powerPellets : List Position
  positionHistory : List Position
deriving DecidableEq, Repr

/-- `simulatePacmanMove` (returns `none` when the move is not walkable;
`cloneGameState` is identity in the pure embedding): move with teleport,
record the previous position, push the history (cap 15 via `shift`), eat a
dot (`findIndex` + `splice`), eat a pellet frightening all ghosts. -/
def simulatePacmanMove (m : Maze) (state : SimState) (direction : Direction) :
    Option SimState :=
  let newPos := getPositionFromMove m state.pacmanPos direction
  if ¬ isWalkable m newPos then none
  else
    let hist := state.positionHistory ++ [newPos]
    let hist := if hist.length > 15 then hist.tail else hist
    let dots := state.dots.eraseP (fun d => decide (d.x = newPos.x ∧ d.y = newPos.y))
    if state.powerPellets.any (fun p => decide (p.x = newPos.x ∧ p.y = newPos.y)) then
      some { state with
        previousPacmanPos := state.pacmanPos
        pacmanPos := newPos
        positionHistory := hist
        dots := dots
        powerPellets := state.powerPellets.eraseP (fun p => decide (p.x = newPos.x ∧ p.y = newPos.y))
        ghosts := state.ghosts.map (fun g => { g with isFrightened := true }) }
    else
      some { state with
        previousPacmanPos := state.pacmanPos
        pacmanPos := newPos
        positionHistory := hist
        dots := dots }

/-- The ghost loop of `simulateGhostMoves`: each ghost takes its predicted
move; a same-tile or swap collision with a non-frightened ghost returns
`false` immediately (later ghosts stay unmoved). -/
def simGhostsGo (m : Maze) (currentPacmanPos previousPacmanPos : Position) :
    List Ghost → Bool × List Ghost
  | [] => (true, [])
  | ghost :: rest =>
    let newPos := predictGhostNextMove m ghost currentPacmanPos
    if ghost.isFrightened then
      let r := simGhostsGo m currentPacmanPos previousPacmanPos rest
      (r.1, { ghost with position := newPos } :: r.2)
    else
      if newPos.x = currentPacmanPos.x ∧ newPos.y = currentPacmanPos.y then
        (false, { ghost with position := newPos } :: rest)
      else if ghost.position.x = currentPacmanPos.x ∧ ghost.position.y = currentPacmanPos.y ∧
          newPos.x = previousPacmanPos.x ∧ newPos.y = previousPacmanPos.y then
        (false, { ghost with position := newPos } :: rest)
      else
        let r := simGhostsGo m currentPacmanPos previousPacmanPos rest
        (r.1, { ghost with position := newPos } :: r.2)

/-- `simulateGhostMoves` (true = Pac-Man survives). -/
def simulateGhostMoves (m : Maze) (state : SimState) : Bool × SimState :=
  let r := simGhostsGo m state.pacmanPos state.previousPacmanPos state.ghosts
  (r.1, { state with ghosts := r.2 })

/-- `getValidPacmanMoves`. -/
def getValidPacmanMoves (m : Maze) (pos : Position) : List Direction :=
  directions.filter (fun move => isWalkable m (getPositionFromMove m pos move))

/-- The pending call of the `predictiveLookahead` recursion: either a node
evaluation or the tail of the alpha-beta loop over Pac-Man's moves. -/
inductive LookCall where
  | look (st : SimState) (depth : Nat) (alpha beta : JNum) (isMaximizingPlayer : Bool)
  | maxFold (st : SimState) (childDepth : Nat) (beta : JNum) (moves : List Direction)
      (maxEval alpha : JNum)

/-- `predictiveLookahead`, made structurally recursive on a fuel argument
(each call consumes one unit; a chain from depth `d` consumes at most
`6·d + 6` units, so `LOOK_FUEL` below always suffices and the 0 case is
unreachable).  Max node: fold over valid moves with
`maxEval/alpha := Math.max(..)` and the `beta <= alpha` cutoff.  Min node:
the single projected ghost move; collision/swap yields `-100000`.  Base case
(`depth === 0 || dots.length === 0`, or no valid moves): `evaluateState`
without expensive heuristics. -/
def lookaheadGo (m : Maze) (w : HeuristicWeights) (initialDotCount : Int) :
    Nat → LookCall → JNum
  | 0, _ => JNum.nan
  | fuel + 1, .look st depth alpha beta isMax =>
    if depth = 0 ∨ st.dots.length = 0 then
      evaluateState m w st.pacmanPos st.ghosts st.dots st.powerPellets initialDotCount false
    else if isMax then
      let validMoves := getValidPacmanMoves m st.pacmanPos
      if validMoves.isEmpty then
        evaluateState m w st.pacmanPos st.ghosts st.dots st.powerPellets initialDotCount false
      else
        lookaheadGo m w initialDotCount fuel
          (.maxFold st (depth - 1) beta validMoves JNum.ninf alpha)
    else
      let r := simulateGhostMoves m st
      if r.1 then lookaheadGo m w initialDotCount fuel (.look r.2 (depth - 1) alpha beta true)
      else JNum.fin (-100000)
  | fuel + 1, .maxFold st childDepth beta moves maxEval alpha =>
    match moves with
    | [] => maxEval
    | move :: rest =>
      match simulatePacmanMove m st move with
      | none =>
        lookaheadGo m w initialDotCount fuel (.maxFold st childDepth beta rest maxEval alpha)
      | some newState =>
        let evaluation :=
          lookaheadGo m w initialDotCount fuel (.look newState childDepth alpha beta false)
        let maxEval2 := JNum.jmax maxEval evaluation
        let alpha2 := JNum.jmax alpha evaluation
        if JNum.le beta alpha2 then maxEval2
        else lookaheadGo m w initialDotCount fuel (.maxFold st childDepth beta rest maxEval2 alpha2)

/-- Ample fuel for a `predictiveLookahead` call at the given depth. -/
def LOOK_FUEL (depth : Nat) : Nat := 10 * depth + 10

/-- `predictiveLookahead(state, depth, alpha, beta, isMaximizingPlayer,
initialDotCount)`. -/
def predictiveLookahead (m : Maze) (w : HeuristicWeights) (state : SimState) (depth : Nat)
    (alpha beta : JNum) (isMaximizingPlayer : Bool) (initialDotCount : Int) : JNum :=
  lookaheadGo m w initialDotCount (LOOK_FUEL depth)
    (.look state depth alpha beta isMaximizingPlayer)

/-- `moveValues.get(k)` on the direction-keyed root map. -/
def dget (l : List (Direction × JNum)) (k : Direction) : Option JNum :=
  aget l k

/-- `moveValues.set(k, v)`. -/
def dset (l : List (Direction × JNum)) (k : Direction) (v : JNum) : List (Direction × JNum) :=
  aset l k v

/-- The accumulator of `findBestMoveWithLookahead`: best move, best value and
the `moveValues` map. -/
structure RootAcc where
  bestMove : Option Direction
  bestValue : JNum
  moveValues : List (Direction × JNum)

/-- One iteration of the first loop of `findBestMoveWithLookahead`:
deep-search the move from the root (`alpha = -∞`, `beta = ∞`), record its
value and track the strict argmax. -/
def rootScanStep (m : Maze) (w : HeuristicWeights) (searchDepth : Nat) (state : SimState)
    (initialDotCount : Int) (acc : RootAcc) (move : Direction) : RootAcc :=
  match simulatePacmanMove m state move with
  | none => acc
  | some newState =>
    let moveValue := predictiveLookahead m w newState (searchDepth - 1)
      JNum.ninf JNum.pinf false initialDotCount
    let moveValues := dset acc.moveValues move moveValue
    if JNum.lt acc.bestValue moveValue then ⟨some move, moveValue, moveValues⟩
    else { acc with moveValues := moveValues }

/-- The first loop of `findBestMoveWithLookahead`. -/
def rootScan (m : Maze) (w : HeuristicWeights) (searchDepth : Nat) (state : SimState)
    (initialDotCount : Int) (validMoves : List Direction) : RootAcc :=
  validMoves.foldl (rootScanStep m w searchDepth state initialDotCount)
    ⟨none, JNum.ninf, []⟩

/-- One iteration of the tier-2 loop of `findBestMoveWithLookahead`: add the
expensive heuristics of the immediate post-move position to the entry's deep
score (each entry is visited once with its deep score; only its own key is
re-set). -/
def rootTier2Step (m : Maze) (w : HeuristicWeights) (state : SimState) (acc : RootAcc)
    (entry : Direction × JNum) : RootAcc :=
  match simulatePacmanMove m state entry.1 with
  | none => acc
  | some moveState =>
    let expensiveScore := JNum.fin
      (calculatePositionalAdvantage m w moveState.pacmanPos moveState.ghosts +
       calculateChokePointDanger m w moveState.pacmanPos moveState.ghosts)
    let totalScore := JNum.add entry.2 expensiveScore
    let moveValues := dset acc.moveValues entry.1 totalScore
    if JNum.lt acc.bestValue totalScore then ⟨some entry.1, totalScore, moveValues⟩
    else { acc with moveValues := moveValues }

/-- The tier-2 loop of `findBestMoveWithLookahead`. -/
def rootTier2 (m : Maze) (w : HeuristicWeights) (state : SimState) (acc0 : RootAcc) :
    RootAcc :=
  acc0.moveValues.foldl (rootTier2Step m w state) acc0

/-- The anti-dithering logic of `findBestMoveWithLookahead` (the float
literals 0.05 and 0.15 are modelled exactly; `Math.min(...list, Infinity)` is
`none` on an empty list). -/
def applyInertia (m : Maze) (state : SimState) (validMoves : List Direction)
    (currentDirection : Direction) (acc : RootAcc) : RootAcc :=
  let ghostDists := (state.ghosts.filter (fun g => !g.isFrightened)).map
    (fun g => heuristic m state.pacmanPos g.position)
  let minGhostDist : Option Int := if ghostDists.isEmpty then none else some (listMin ghostDists)
  let allFood := state.dots ++ state.powerPellets
  let minFoodDist : Option Int :=
    if allFood.length > 0 then some (listMin (allFood.map (fun f => heuristic m state.pacmanPos f)))
    else none
  let isFarFromDanger := match minGhostDist with | none => true | some d => decide (d > 10)
  let isFarFromFood := match minFoodDist with | none => true | some d => decide (d > 8)
  let isExploring := isFarFromDanger && isFarFromFood
  if acc.bestMove ≠ none ∧ currentDirection ∈ validMoves then
    let currentScore := (dget acc.moveValues currentDirection).getD JNum.ninf
    let scoreDiff := JNum.jabs (JNum.sub acc.bestValue currentScore)
    let closeScores := JNum.lt scoreDiff (JNum.mul (JNum.jabs acc.bestValue) (JNum.fin (1 / 20)))
    if isExploring then
      let explorationBonus := JNum.mul (JNum.jabs acc.bestValue) (JNum.fin (3 / 20))
      if JNum.le acc.bestValue (JNum.add currentScore explorationBonus) then
        { acc with bestMove := some currentDirection }
      else acc
    else if closeScores && !isExploring then
      let inertiaBonus := JNum.mul (JNum.jabs acc.bestValue) (JNum.fin (1 / 20))
      if JNum.le acc.bestValue (JNum.add currentScore inertiaBonus) then
        { acc with bestMove := some currentDirection }
      else acc
    else acc
  else acc

/-- `findBestMoveWithLookahead(state, currentDirection)` (the `nodesEvaluated`
reset and the two `Date.now()` reads feed only unused debug locals; see
`findBestDirectionTimed`). -/
def findBestMoveWithLookahead (m : Maze) (w : HeuristicWeights) (searchDepth : Nat)
    (state : SimState) (currentDirection : Direction) :
    Option Direction × List (Direction × JNum) :=
  let validMoves := getValidPacmanMoves m state.pacmanPos
  let initialDotCount : Int := state.dots.length + state.powerPellets.length
  if validMoves.isEmpty then (none, [])
  else
    let acc := rootScan m w searchDepth state initialDotCount validMoves
    let acc := rootTier2 m w state acc
    let acc := applyInertia m state validMoves currentDirection acc
    (acc.bestMove, acc.moveValues)

/-- The nearest-food scan of the safe-exploration fast path
(`minPelletDist` starts at `Infinity`; first strict improvement wins). -/
def nearestFoodTo (m : Maze) (start : Position) (allFood : List Position) : Option Position :=
  (allFood.foldl (fun (acc : Option Position × Option Int) pellet =>
    let dist := heuristic m start pellet
    match acc.2 with
    | none => (some pellet, some dist)
    | some minPelletDist =>
      if dist < minPelletDist then (some pellet, some dist) else acc) (none, none)).1

/-- The safe-exploration fast path at the top of `findBestDirection`: when a
non-frightened ghost exists, food remains, the minimum ghost distance exceeds
12 and the A* path to the nearest food has a second cell, return the first
step of that path; otherwise fall through (`none`). -/
def fastPathDirection (m : Maze) (start : Position) (dots powerPellets : List Position)
    (ghosts : List Ghost) : Option Direction :=
  let allFood := dots ++ powerPellets
  let nonFrightenedGhosts := ghosts.filter (fun g => !g.isFrightened)
  if nonFrightenedGhosts.length > 0 ∧ allFood.length > 0 then
    let minGhostDist := listMin (nonFrightenedGhosts.map (fun g => heuristic m start g.position))
    if minGhostDist > 12 then
      match nearestFoodTo m start allFood with
      | none => none
      | some nearestPellet =>
        let path := aStar m start nearestPellet
        if path.length > 1 then some (getDirectionToPosition start (path.getD 1 start))
        else none
    else none
  else none

/-- `findBestDirection(start, currentDirection, dots, powerPellets, ghosts,
isFrightened, recentPositions)`: the fast path, else the predictive lookahead
(the returned debug info is display-only and not modelled). -/
def findBestDirection (m : Maze) (w : HeuristicWeights) (searchDepth : Nat)
    (start : Position) (currentDirection : Direction) (dots powerPellets : List Position)
    (ghosts : List Ghost) (isFrightened : Bool) (recentPositions : List Position) :
    Option Direction :=
  match fastPathDirection m start dots powerPellets ghosts with
  | some aStarDirection => some aStarDirection
  | none =>
    let initialState : SimState :=
      { pacmanPos := start, previousPacmanPos := start, ghosts := ghosts
        dots := dots, powerPellets := powerPellets, positionHistory := recentPositions }
    (findBestMoveWithLookahead m w searchDepth initialState currentDirection).1

/-- `findBestDirection` together with the impure reads of its call
(`startTime`/`endTime` from `Date.now()`, which feed only the unused
`processingTime` local of `findBestMoveWithLookahead`). -/
def findBestDirectionTimed (m : Maze) (w : HeuristicWeights) (searchDepth : Nat)
    (startTime endTime : Int) (start : Position) (currentDirection : Direction)
    (dots powerPellets : List Position) (ghosts : List Ghost) (isFrightened : Bool)
    (recentPositions : List Position) : Option Direction × Int :=
  (findBestDirection m w searchDepth start currentDirection dots powerPellets ghosts
    isFrightened recentPositions,
   endTime - startTime)

end Brain

/- Claims C5, C7, C9 about the brain. -/

/-- A non-frightened ghost far down the corridor of `wMaze`. -/
def wFarGhost : Brain.Ghost := { position := ⟨27, 0⟩, direction := .LEFT, isFrightened := false }

/-- C5: when a non-frightened ghost exists, food remains, the minimum
Manhattan-with-teleports ghost distance exceeds 12, and the A* path to the
nearest food has a second cell, `findBestDirection` returns the first step of
that A* path — and is independent of the weights, the search depth, the
current facing and the history, i.e. the lookahead search is not consulted. -/
theorem C5_fast_path (m : Maze) (w : Brain.HeuristicWeights) (depth : Nat)
    (start : Position) (cur : Direction) (dots pellets : List Position)
    (ghosts : List Brain.Ghost) (fr : Bool) (recent : List Position)
    (hg : (ghosts.filter (fun g => !g.isFrightened)).length > 0)
    (hf : (dots ++ pellets).length > 0)
    (hd : Brain.listMin ((ghosts.filter (fun g => !g.isFrightened)).map
      (fun g => Brain.heuristic m start g.position)) > 12)
    (nf : Position)
    (hnf : Brain.nearestFoodTo m start (dots ++ pellets) = some nf)
    (hlen : (Brain.aStar m start nf).length > 1) :
    Brain.findBestDirection m w depth start cur dots pellets ghosts fr recent =
      some (Brain.getDirectionToPosition start ((Brain.aStar m start nf).getD 1 start)) ∧
    (∀ (w2 : Brain.HeuristicWeights) (depth2 : Nat) (cur2 : Direction) (fr2 : Bool)
        (recent2 : List Position),
      Brain.findBestDirection m w2 depth2 start cur2 dots pellets ghosts fr2 recent2 =
        Brain.findBestDirection m w depth start cur dots pellets ghosts fr recent) := by
  have hfp : Brain.fastPathDirection m start dots pellets ghosts =
      some (Brain.getDirectionToPosition start ((Brain.aStar m start nf).getD 1 start)) := by
    rw [Brain.fastPathDirection]
    rw [if_pos ⟨hg, hf⟩, if_pos hd]
    simp only [hnf, if_pos hlen]
  constructor
  · simp only [Brain.findBestDirection, hfp]
  · intro w2 depth2 cur2 fr2 recent2
    simp only [Brain.findBestDirection, hfp]

/-- Witness for C5: on the corridor maze with the ghost 27 tiles away and a
dot at `(2,0)`, the fast path returns the first A* step (RIGHT). -/
theorem C5_witness :
    Brain.findBestDirection wMaze Brain.defaultWeights 12 ⟨0, 0⟩ Direction.RIGHT
        [⟨2, 0⟩] [] [wFarGhost] false [] =
      some (Brain.getDirectionToPosition ⟨0, 0⟩
        ((Brain.aStar wMaze ⟨0, 0⟩ ⟨2, 0⟩).getD 1 ⟨0, 0⟩)) :=
  (C5_fast_path wMaze Brain.defaultWeights 12 ⟨0, 0⟩ Direction.RIGHT
    [⟨2, 0⟩] [] [wFarGhost] false [] (by decide) (by decide) (by decide)
    ⟨2, 0⟩ (by decide) (by decide)).1

/-- The scan of `predictGhostNextMove`'s fallback: folding candidate steps and
keeping each first strict improvement of the running minimum distance. -/
theorem predictScan_spec (m : Maze) (gpos pac : Position) (l : List Direction)
    (acc : Position × Int) :
    (List.foldl (Brain.predictScanStep m gpos pac) acc l = acc ∨
      ∃ d ∈ l,
        (List.foldl (Brain.predictScanStep m gpos pac) acc l).1 =
          Brain.getPositionFromMove m gpos d ∧
        Brain.isWalkable m (Brain.getPositionFromMove m gpos d) = true ∧
        (List.foldl (Brain.predictScanStep m gpos pac) acc l).2 =
          Brain.heuristic m (Brain.getPositionFromMove m gpos d) pac ∧
        (List.foldl (Brain.predictScanStep m gpos pac) acc l).2 < acc.2) ∧
    (List.foldl (Brain.predictScanStep m gpos pac) acc l).2 ≤ acc.2 ∧
    (∀ d ∈ l, Brain.isWalkable m (Brain.getPositionFromMove m gpos d) = true →
      (List.foldl (Brain.predictScanStep m gpos pac) acc l).2 ≤
        Brain.heuristic m (Brain.getPositionFromMove m gpos d) pac) := by
  induction l generalizing acc with
  | nil => exact ⟨Or.inl rfl, le_refl _, by intro d hd; exact absurd hd (List.not_mem_nil d)⟩
  | cons a l ih =>
    simp only [List.foldl_cons]
    by_cases hw : Brain.isWalkable m (Brain.getPositionFromMove m gpos a) = true
    · by_cases himp : Brain.heuristic m (Brain.getPositionFromMove m gpos a) pac < acc.2
      · have step : Brain.predictScanStep m gpos pac acc a =
            (Brain.getPositionFromMove m gpos a,
             Brain.heuristic m (Brain.getPositionFromMove m gpos a) pac) := by
          simp only [Brain.predictScanStep]
          rw [if_pos hw, if_pos himp]
        rw [step]
        obtain ⟨hcase, hle, hall⟩ :=
          ih (Brain.getPositionFromMove m gpos a,
              Brain.heuristic m (Brain.getPositionFromMove m gpos a) pac)
        refine ⟨?_, ?_, ?_⟩
        · rcases hcase with hacc | ⟨d, hdm, h1, h2, h3, h4⟩
          · right
            exact ⟨a, List.mem_cons_self a l, by rw [hacc], hw, by rw [hacc],
              by rw [hacc]; exact himp⟩
          · right
            exact ⟨d, List.mem_cons_of_mem a hdm, h1, h2, h3, lt_trans h4 himp⟩
        · exact le_trans hle (le_of_lt himp)
        · intro d hdm hwd
          rcases List.mem_cons.mp hdm with rfl | hdm
          · exact hle
          · exact hall d hdm hwd
      · have step : Brain.predictScanStep m gpos pac acc a = acc := by
          simp only [Brain.predictScanStep]
          rw [if_pos hw, if_neg himp]
        rw [step]
        obtain ⟨hcase, hle, hall⟩ := ih acc
        refine ⟨?_, hle, ?_⟩
        · rcases hcase with hacc | ⟨d, hdm, h1, h2, h3, h4⟩
          · exact Or.inl hacc
          · exact Or.inr ⟨d, List.mem_cons_of_mem a hdm, h1, h2, h3, h4⟩
        · intro d hdm hwd
          rcases List.mem_cons.mp hdm with rfl | hdm
          · exact le_trans hle (not_lt.mp himp)
          · exact hall d hdm hwd
    · have step : Brain.predictScanStep m gpos pac acc a = acc := by
        simp only [Brain.predictScanStep]
        rw [if_neg hw]
      rw [step]
      obtain ⟨hcase, hle, hall⟩ := ih acc
      refine ⟨?_, hle, ?_⟩
      · rcases hcase with hacc | ⟨d, hdm, h1, h2, h3, h4⟩
        · exact Or.inl hacc
        · exact Or.inr ⟨d, List.mem_cons_of_mem a hdm, h1, h2, h3, h4⟩
      · intro d hdm hwd
        rcases List.mem_cons.mp hdm with rfl | hdm
        · exact absurd hwd hw
        · exact hall d hdm hwd

/-- C7 (amended): the projected ghost cell is the facing step (with teleport)
when that cell is walkable and at most 5 farther from Pac-Man; otherwise,
when some adjacent walkable step strictly reduces the ghost's current
distance, the projection is a walkable step of minimal distance among all
walkable steps (ties broken by the fixed UP, DOWN, LEFT, RIGHT scan), and
when no walkable step strictly reduces the distance the projection is the
ghost's own current cell. -/
theorem C7_ghost_projection (m : Maze) (ghost : Brain.Ghost) (pac : Position) :
    (Brain.isWalkable m (Brain.getPositionFromMove m ghost.position ghost.direction) = true →
     Brain.heuristic m (Brain.getPositionFromMove m ghost.position ghost.direction) pac ≤
       Brain.heuristic m ghost.position pac + 5 →
     Brain.predictGhostNextMove m ghost pac =
       Brain.getPositionFromMove m ghost.position ghost.direction) ∧
    (¬ (Brain.isWalkable m (Brain.getPositionFromMove m ghost.position ghost.direction) = true ∧
        Brain.heuristic m (Brain.getPositionFromMove m ghost.position ghost.direction) pac ≤
          Brain.heuristic m ghost.position pac + 5) →
      ((∃ d ∈ Brain.directions,
          Brain.isWalkable m (Brain.getPositionFromMove m ghost.position d) = true ∧
          Brain.heuristic m (Brain.getPositionFromMove m ghost.position d) pac <
            Brain.heuristic m ghost.position pac) →
        ∃ d ∈ Brain.directions,
          Brain.predictGhostNextMove m ghost pac = Brain.getPositionFromMove m ghost.position d ∧
          Brain.isWalkable m (Brain.getPositionFromMove m ghost.position d) = true ∧
          Brain.heuristic m (Brain.getPositionFromMove m ghost.position d) pac <
            Brain.heuristic m ghost.position pac ∧
          (∀ d2 ∈ Brain.directions,
            Brain.isWalkable m (Brain.getPositionFromMove m ghost.position d2) = true →
            Brain.heuristic m (Brain.getPositionFromMove m ghost.position d) pac ≤
              Brain.heuristic m (Brain.getPositionFromMove m ghost.position d2) pac)) ∧
      ((¬ ∃ d ∈ Brain.directions,
          Brain.isWalkable m (Brain.getPositionFromMove m ghost.position d) = true ∧
          Brain.heuristic m (Brain.getPositionFromMove m ghost.position d) pac <
            Brain.heuristic m ghost.position pac) →
        Brain.predictGhostNextMove m ghost pac = ghost.position)) := by
  constructor
  · intro h1 h2
    rw [Brain.predictGhostNextMove, if_pos ⟨h1, h2⟩]
  · intro hno
    have hfb : Brain.predictGhostNextMove m ghost pac =
        (Brain.directions.foldl (Brain.predictScanStep m ghost.position pac)
          (ghost.position, Brain.heuristic m ghost.position pac)).1 := by
      rw [Brain.predictGhostNextMove, if_neg hno]
    obtain ⟨hcase, hle, hall⟩ := predictScan_spec m ghost.position pac Brain.directions
      (ghost.position, Brain.heuristic m ghost.position pac)
    constructor
    · intro hex
      rcases hcase with hacc | ⟨d, hdm, h1, h2, h3, h4⟩
      · exfalso
        obtain ⟨d, hdm, hwd, hlt⟩ := hex
        have := hall d hdm hwd
        rw [hacc] at this
        exact absurd (lt_of_le_of_lt this hlt) (lt_irrefl _)
      · refine ⟨d, hdm, by rw [hfb]; exact h1, h2, by rw [← h3]; exact h4, ?_⟩
        intro d2 hd2 hw2
        rw [← h3]
        exact hall d2 hd2 hw2
    · intro hnex
      rcases hcase with hacc | ⟨d, hdm, h1, h2, h3, h4⟩
      · rw [hfb, hacc]
      · exact absurd ⟨d, hdm, h2, by rw [← h3]; exact h4⟩ hnex

/-- The maze of the C7 counterexample: a single stored row `[1,0,1,1]`, so
the ghost at `(2,0)` sits in a pocket whose only walkable neighbor `(3,0)`
moves it farther from Pac-Man at `(0,0)`. -/
def mex7 : Maze where
  layout := [[1, 0, 1, 1]]
  teleports := []
  starting :=
    { pacman := ⟨0, 0⟩, ghostHouse := ⟨0, 0⟩, blinky := ⟨0, 0⟩
      pinky := ⟨0, 0⟩, inky := ⟨0, 0⟩, clyde := ⟨0, 0⟩ }

/-- The ghost of the C7 counterexample (facing a wall). -/
def ghost7 : Brain.Ghost := { position := ⟨2, 0⟩, direction := .UP, isFrightened := false }

/-- Counterexample for C7 as stated: the facing step of `ghost7` is not
walkable, so the fallback scan runs, yet the projected cell is the ghost's
own position — not an "adjacent walkable cell that most reduces the
distance": no adjacent cell at all equals the projection. -/
theorem C7_cex :
    Brain.predictGhostNextMove mex7 ghost7 ⟨0, 0⟩ = ghost7.position ∧
    ¬ (Brain.isWalkable mex7 (Brain.getPositionFromMove mex7 ghost7.position ghost7.direction) = true ∧
       Brain.heuristic mex7 (Brain.getPositionFromMove mex7 ghost7.position ghost7.direction) ⟨0, 0⟩ ≤
         Brain.heuristic mex7 ghost7.position ⟨0, 0⟩ + 5) ∧
    ¬ (∃ d ∈ Brain.directions,
        Brain.predictGhostNextMove mex7 ghost7 ⟨0, 0⟩ =
          Brain.getPositionFromMove mex7 ghost7.position d ∧
        Brain.isWalkable mex7 (Brain.getPositionFromMove mex7 ghost7.position d) = true) := by
  decide

/-- Witness for C7: a ghost on the corridor facing RIGHT keeps its facing
(walkable and not more than 5 farther). -/
theorem C7_witness :
    Brain.predictGhostNextMove wMaze
        { position := ⟨0, 0⟩, direction := .RIGHT, isFrightened := false } ⟨5, 0⟩ =
      Brain.getPositionFromMove wMaze ⟨0, 0⟩ Direction.RIGHT :=
  (C7_ghost_projection wMaze
    { position := ⟨0, 0⟩, direction := .RIGHT, isFrightened := false } ⟨5, 0⟩).1
    (by decide) (by decide)

/-- C9: `findBestDirection` is a deterministic function of the listed inputs:
its direction does not depend on the clock reads, and two brains configured
with the same weights and search depth agree on identical observations. -/
theorem C9_brain_deterministic (m : Maze) (w w2 : Brain.HeuristicWeights)
    (depth depth2 : Nat) (t0 t1 t2 t3 : Int) (start : Position) (cur : Direction)
    (dots pellets : List Position) (ghosts : List Brain.Ghost) (fr : Bool)
    (recent : List Position) (hw : w = w2) (hd : depth = depth2) :
    (Brain.findBestDirectionTimed m w depth t0 t1 start cur dots pellets ghosts
        fr recent).1 =
    (Brain.findBestDirectionTimed m w2 depth2 t2 t3 start cur dots pellets ghosts
        fr recent).1 := by
  subst hw
  subst hd
  rfl

/-- Witness for C9: two timed calls with different clock values agree on the
corridor instance. -/
theorem C9_witness :
    (Brain.findBestDirectionTimed wMaze Brain.defaultWeights 12 0 17 ⟨0, 0⟩
        Direction.RIGHT [⟨2, 0⟩] [] [wFarGhost] false []).1 =
    (Brain.findBestDirectionTimed wMaze Brain.defaultWeights 12 100 250 ⟨0, 0⟩
        Direction.RIGHT [⟨2, 0⟩] [] [wFarGhost] false []).1 :=
  C9_brain_deterministic wMaze Brain.defaultWeights Brain.defaultWeights 12 12 0 17 100 250
    ⟨0, 0⟩ Direction.RIGHT [⟨2, 0⟩] [] [wFarGhost] false [] rfl rfl

/- Claim C6: adjacent-ghost evaluation and the root selection. -/

theorem JNum.lt_ninf_false (x : JNum) : JNum.lt x JNum.ninf = false := by
  cases x <;> rfl

theorem JNum.lt_pinf_false (x : JNum) : JNum.lt JNum.pinf x = false := by
  cases x <;> rfl

theorem JNum.lt_nan_false (x : JNum) : JNum.lt JNum.nan x = false := by
  cases x <;> rfl

theorem JNum.lt_ninf_trans {b c : JNum} (h1 : JNum.lt JNum.ninf b = true)
    (h2 : JNum.lt b c = true) : JNum.lt JNum.ninf c = true := by
  cases b <;> cases c <;> simp_all [JNum.lt]

theorem JNum.add_fin_eq_ninf {v : JNum} {q : ℚ} (h : JNum.add v (JNum.fin q) = JNum.ninf) :
    v = JNum.ninf := by
  cases v <;> simp_all [JNum.add]

/-- `map.set` preserves key uniqueness. -/
theorem aset_keys_nodup {κ α : Type} [DecidableEq κ] (l : List (κ × α)) (k : κ) (v : α)
    (hnd : (l.map Prod.fst).Nodup) : ((aset l k v).map Prod.fst).Nodup := by
  rw [aset]
  split_ifs with hs
  · have : (l.map (fun e => if e.1 = k then (k, v) else e)).map Prod.fst = l.map Prod.fst := by
      rw [List.map_map]
      refine List.map_congr_left ?_
      intro e he
      by_cases h : e.1 = k
      · simp [h]
      · simp [h]
    rw [this]
    exact hnd
  · rw [List.map_append]
    rw [List.nodup_append]
    refine ⟨hnd, List.nodup_singleton k, ?_⟩
    intro a ha hb
    rcases List.mem_singleton.mp hb with rfl
    obtain ⟨e, he, rfl⟩ := List.mem_map.mp ha
    have hnone : l.find? (fun x => decide (x.1 = e.1)) = none := by
      rcases hopt : l.find? (fun x => decide (x.1 = e.1)) with _ | u
      · exact hopt
      · rw [hopt] at hs; simp at hs
    have hprop := List.find?_eq_none.mp hnone e he
    simp at hprop

/-- With unique keys, a stored entry is what `get` returns. -/
theorem nodup_aget_of_mem {κ α : Type} [DecidableEq κ] {l : List (κ × α)}
    (hnd : (l.map Prod.fst).Nodup) {e : κ × α} (he : e ∈ l) : aget l e.1 = some e.2 := by
  induction l with
  | nil => exact absurd he (List.not_mem_nil e)
  | cons a l ih =>
    rcases List.mem_cons.mp he with rfl | he2
    · rw [aget, List.find?]
      simp
    · have hane : a.1 ≠ e.1 := by
        intro hx
        have : e.1 ∈ l.map Prod.fst := List.mem_map.mpr ⟨e, he2, rfl⟩
        rw [← hx] at this
        exact (List.nodup_cons.mp (by simpa using hnd)).1 this
      have hf : List.find? (fun x : κ × α => decide (x.1 = e.1)) (a :: l) =
          List.find? (fun x : κ × α => decide (x.1 = e.1)) l := by
        rw [List.find?]
        have hd : decide (a.1 = e.1) = false := by simpa using hane
        rw [hd]
      have := ih (List.nodup_cons.mp (by simpa using hnd)).2 he2
      rw [aget] at this
      rw [aget, hf]
      exact this

/-- The first root loop keeps the `moveValues` keys unique. -/
theorem rootScan_fold_keys_nodup (m : Maze) (w : Brain.HeuristicWeights) (sd : Nat)
    (st : Brain.SimState) (idc : Int) (l : List Direction) :
    ∀ acc : Brain.RootAcc, (acc.moveValues.map Prod.fst).Nodup →
      (((List.foldl (Brain.rootScanStep m w sd st idc) acc l).moveValues).map Prod.fst).Nodup := by
  induction l with
  | nil => intro acc h; exact h
  | cons a l ih =>
    intro acc h
    rw [List.foldl_cons]
    refine ih _ ?_
    rw [Brain.rootScanStep]
    rcases Brain.simulatePacmanMove m st a with _ | ns
    · exact h
    · dsimp only
      split_ifs
      · exact aset_keys_nodup _ _ _ h
      · exact aset_keys_nodup _ _ _ h

/-- Invariants of the first root loop: a `none` best has value `-∞`, a chosen
best has value above `-∞`, and the chosen best's recorded value is never
`-∞`. -/
theorem rootScan_inv (m : Maze) (w : Brain.HeuristicWeights) (sd : Nat)
    (st : Brain.SimState) (idc : Int) (l : List Direction) :
    ∀ acc : Brain.RootAcc, l.Nodup →
      (acc.bestMove = none → acc.bestValue = JNum.ninf) →
      (∀ x, acc.bestMove = some x → JNum.lt JNum.ninf acc.bestValue = true) →
      (∀ x, acc.bestMove = some x → x ∉ l) →
      (∀ x, acc.bestMove = some x → Brain.dget acc.moveValues x ≠ some JNum.ninf) →
      ((List.foldl (Brain.rootScanStep m w sd st idc) acc l).bestMove = none →
        (List.foldl (Brain.rootScanStep m w sd st idc) acc l).bestValue = JNum.ninf) ∧
      (∀ x, (List.foldl (Brain.rootScanStep m w sd st idc) acc l).bestMove = some x →
        JNum.lt JNum.ninf (List.foldl (Brain.rootScanStep m w sd st idc) acc l).bestValue = true) ∧
      (∀ x, (List.foldl (Brain.rootScanStep m w sd st idc) acc l).bestMove = some x →
        Brain.dget (List.foldl (Brain.rootScanStep m w sd st idc) acc l).moveValues x ≠
          some JNum.ninf) := by
  induction l with
  | nil => intro acc _ h1 h2 _ h4; exact ⟨h1, h2, h4⟩
  | cons a l ih =>
    intro acc hnd h1 h2 h3 h4
    rw [List.foldl_cons]
    have hndl := (List.nodup_cons.mp hnd).2
    have hanl := (List.nodup_cons.mp hnd).1
    rw [Brain.rootScanStep]
    rcases hsim : Brain.simulatePacmanMove m st a with _ | ns
    · exact ih acc hndl h1 h2
        (fun x hx => fun hmem => h3 x hx (List.mem_cons_of_mem a hmem)) h4
    · dsimp only
      set v := Brain.predictiveLookahead m w ns (sd - 1) JNum.ninf JNum.pinf false idc with hv
      by_cases hlt : JNum.lt acc.bestValue v = true
      · rw [if_pos hlt]
        refine ih _ hndl (by intro h; simp at h) ?_ ?_ ?_
        · intro x hx
          have hninf : JNum.lt JNum.ninf v = true := by
            rcases hbm : acc.bestMove with _ | x0
            · rw [h1 hbm] at hlt; exact hlt
            · exact JNum.lt_ninf_trans (h2 x0 hbm) hlt
          exact hninf
        · intro x hx
          have hax : a = x := by simpa using hx
          rw [← hax]
          exact hanl
        · intro x hx
          have hxa : a = x := by simpa using hx
          rw [← hxa]
          rw [Brain.dget, Brain.dset, aget_aset_self]
          intro hc
          have : v = JNum.ninf := by simpa using hc
          rw [this] at hlt
          rw [JNum.lt_ninf_false] at hlt
          exact absurd hlt (by simp)
      · rw [if_neg hlt]
        refine ih _ hndl h1 h2
          (fun x hx hmem => h3 x hx (List.mem_cons_of_mem a hmem)) ?_
        intro x hx
        have hxa : x ≠ a := by
          intro hc
          exact h3 x hx (hc ▸ List.mem_cons_self a l)
        rw [Brain.dget, Brain.dset, aget_aset_ne _ _ _ _ hxa]
        exact h4 x hx

/-- Invariants of the tier-2 loop, carrying the snapshot relation `dget
acc.moveValues e.1 = some e.2` for the unprocessed entries. -/
theorem rootTier2_inv (m : Maze) (w : Brain.HeuristicWeights) (st : Brain.SimState)
    (l : List (Direction × JNum)) :
    ∀ acc : Brain.RootAcc, (l.map Prod.fst).Nodup →
      (acc.bestMove = none → acc.bestValue = JNum.ninf) →
      (∀ x, acc.bestMove = some x → JNum.lt JNum.ninf acc.bestValue = true) →
      (∀ e ∈ l, Brain.dget acc.moveValues e.1 = some e.2) →
      (∀ x, acc.bestMove = some x → Brain.dget acc.moveValues x ≠ some JNum.ninf) →
      ((List.foldl (Brain.rootTier2Step m w st) acc l).bestMove = none →
        (List.foldl (Brain.rootTier2Step m w st) acc l).bestValue = JNum.ninf) ∧
      (∀ x, (List.foldl (Brain.rootTier2Step m w st) acc l).bestMove = some x →
        JNum.lt JNum.ninf (List.foldl (Brain.rootTier2Step m w st) acc l).bestValue = true) ∧
      (∀ x, (List.foldl (Brain.rootTier2Step m w st) acc l).bestMove = some x →
        Brain.dget (List.foldl (Brain.rootTier2Step m w st) acc l).moveValues x ≠
          some JNum.ninf) := by
  induction l with
  | nil => intro acc _ h1 h2 _ h4; exact ⟨h1, h2, h4⟩
  | cons e l ih =>
    intro acc hnd h1 h2 hR h4
    rw [List.foldl_cons]
    have hndl : (l.map Prod.fst).Nodup := (List.nodup_cons.mp (by simpa using hnd)).2
    have henl : e.1 ∉ l.map Prod.fst := (List.nodup_cons.mp (by simpa using hnd)).1
    rw [Brain.rootTier2Step]
    rcases hsim : Brain.simulatePacmanMove m st e.1 with _ | ms
    · exact ih acc hndl h1 h2 (fun x hx => hR x (List.mem_cons_of_mem e hx)) h4
    · dsimp only
      set E : ℚ := Brain.calculatePositionalAdvantage m w ms.pacmanPos ms.ghosts +
        Brain.calculateChokePointDanger m w ms.pacmanPos ms.ghosts with hE
      set V := JNum.add e.2 (JNum.fin E) with hV
      have hVninf : V = JNum.ninf → e.2 = JNum.ninf := fun hc => JNum.add_fin_eq_ninf hc
      by_cases hlt : JNum.lt acc.bestValue V = true
      · rw [if_pos hlt]
        refine ih _ hndl (by intro h; simp at h) ?_ ?_ ?_
        · intro x hx
          have hninf : JNum.lt JNum.ninf V = true := by
            rcases hbm : acc.bestMove with _ | x0
            · rw [h1 hbm] at hlt; exact hlt
            · exact JNum.lt_ninf_trans (h2 x0 hbm) hlt
          exact hninf
        · intro e2 he2
          have hne : e2.1 ≠ e.1 := by
            intro hc
            exact henl (hc ▸ List.mem_map.mpr ⟨e2, he2, rfl⟩)
          rw [Brain.dget, Brain.dset, aget_aset_ne _ _ _ _ hne]
          exact hR e2 (List.mem_cons_of_mem e he2)
        · intro x hx
          have hxe : e.1 = x := by simpa using hx
          rw [← hxe, Brain.dget, Brain.dset, aget_aset_self]
          intro hc
          have hcv : V = JNum.ninf := by simpa using hc
          rw [hcv] at hlt
          rw [JNum.lt_ninf_false] at hlt
          exact absurd hlt (by simp)
      · rw [if_neg hlt]
        refine ih _ hndl h1 h2 ?_ ?_
        · intro e2 he2
          have hne : e2.1 ≠ e.1 := by
            intro hc
            exact henl (hc ▸ List.mem_map.mpr ⟨e2, he2, rfl⟩)
          rw [Brain.dget, Brain.dset, aget_aset_ne _ _ _ _ hne]
          exact hR e2 (List.mem_cons_of_mem e he2)
        · intro x hx
          by_cases hxe : x = e.1
          · rw [hxe, Brain.dget, Brain.dset, aget_aset_self]
            intro hc
            have hcv : V = JNum.ninf := by simpa using hc
            have he2n : e.2 = JNum.ninf := hVninf hcv
            have := hR e (List.mem_cons_self e l)
            rw [he2n] at this
            exact h4 x hx (hxe ▸ this)
          · rw [Brain.dget, Brain.dset, aget_aset_ne _ _ _ _ hxe]
            exact h4 x hx

/-- The anti-dithering step never changes the recorded move values. -/
theorem applyInertia_moveValues (m : Maze) (st : Brain.SimState) (vm : List Direction)
    (cur : Direction) (acc : Brain.RootAcc) :
    (Brain.applyInertia m st vm cur acc).moveValues = acc.moveValues := by
  rw [Brain.applyInertia]
  dsimp only
  split_ifs <;> rfl

/-- The anti-dithering step can only keep the best move or switch to the
current facing. -/
theorem applyInertia_bestMove_cases (m : Maze) (st : Brain.SimState) (vm : List Direction)
    (cur : Direction) (acc : Brain.RootAcc) :
    (Brain.applyInertia m st vm cur acc).bestMove = acc.bestMove ∨
    (Brain.applyInertia m st vm cur acc).bestMove = some cur := by
  rw [Brain.applyInertia]
  dsimp only
  split_ifs <;> simp

/-- The anti-dithering step never resurrects a direction whose recorded root
value is `-∞`: with a chosen best above `-∞`, a `-∞`-valued current facing
fails both inertia comparisons (the score difference against `-∞` is `+∞` or
NaN). -/
theorem applyInertia_ninf (m : Maze) (st : Brain.SimState) (vm : List Direction)
    (cur : Direction) (acc : Brain.RootAcc) (d : Direction)
    (hW2 : ∀ x, acc.bestMove = some x → JNum.lt JNum.ninf acc.bestValue = true)
    (hd : Brain.dget acc.moveValues d = some JNum.ninf)
    (hbm : acc.bestMove ≠ some d) :
    (Brain.applyInertia m st vm cur acc).bestMove ≠ some d := by
  by_cases hcd : cur = d
  · subst hcd
    rw [Brain.applyInertia]
    dsimp only
    by_cases hg : acc.bestMove ≠ none ∧ cur ∈ vm
    · rw [if_pos hg, hd]
      obtain ⟨x0, hx0⟩ := Option.ne_none_iff_exists'.mp hg.1
      have hbv := hW2 x0 hx0
      simp only [Option.getD_some]
      rcases hbvK : acc.bestValue with _ | _ | _ | q
      · rw [hbvK] at hbv; exact absurd hbv (by simp [JNum.lt])
      · rw [hbvK] at hbv; exact absurd hbv (by simp [JNum.lt])
      · have h320 : (0 : ℚ) < 3 / 20 := by norm_num
        have hmul : JNum.mul (JNum.jabs JNum.pinf) (JNum.fin (3 / 20)) = JNum.pinf := by
          simp [JNum.jabs, JNum.mul, h320]
        have hC1 : JNum.le JNum.pinf (JNum.add JNum.ninf
            (JNum.mul (JNum.jabs JNum.pinf) (JNum.fin (3 / 20)))) = false := by
          rw [hmul]; rfl
        have hclose : JNum.lt (JNum.jabs (JNum.sub JNum.pinf JNum.ninf))
            (JNum.mul (JNum.jabs JNum.pinf) (JNum.fin (1 / 20))) = false :=
          JNum.lt_pinf_false _
        simp only [hC1, hclose, Bool.false_and, if_false, Bool.false_eq_true, ite_self]
        exact hbm
      · have hC1 : JNum.le (JNum.fin q) (JNum.add JNum.ninf
            (JNum.mul (JNum.jabs (JNum.fin q)) (JNum.fin (3 / 20)))) = false := rfl
        have hclose : JNum.lt (JNum.jabs (JNum.sub (JNum.fin q) JNum.ninf))
            (JNum.mul (JNum.jabs (JNum.fin q)) (JNum.fin (1 / 20))) = false :=
          JNum.lt_pinf_false _
        simp only [hC1, hclose, Bool.false_and, if_false, Bool.false_eq_true, ite_self]
        exact hbm
    · rw [if_neg hg]
      exact hbm
  · rcases applyInertia_bestMove_cases m st vm cur acc with h | h
    · rw [h]; exact hbm
    · rw [h]
      intro hc
      exact hcd (by simpa using hc)

/-- C6 (amended): (a) whenever at least one dot or pellet remains in the
reached state, the evaluation of a state with a non-frightened ghost within
Manhattan-with-teleports distance 1 of Pac-Man returns `-∞`; (b) the root
move selection never returns a direction whose final recorded root value is
`-∞` (when every walkable direction scores `-∞` it returns null).  Moving
along such a `d` can, however, be selected when it eats the last food, since
the win check precedes the loss check. -/
theorem C6_adjacent_ghost (m : Maze) (w : Brain.HeuristicWeights) :
    (∀ (pac : Position) (ghosts : List Brain.Ghost) (dots powerPellets : List Position)
        (idc : Int) (flag : Bool),
      (dots ≠ [] ∨ powerPellets ≠ []) →
      (∃ g ∈ ghosts, g.isFrightened = false ∧ Brain.heuristic m pac g.position ≤ 1) →
      Brain.evaluateState m w pac ghosts dots powerPellets idc flag = JNum.ninf) ∧
    (∀ (sd : Nat) (st : Brain.SimState) (cur d : Direction),
      Brain.dget (Brain.findBestMoveWithLookahead m w sd st cur).2 d = some JNum.ninf →
      (Brain.findBestMoveWithLookahead m w sd st cur).1 ≠ some d) := by
  constructor
  · intro pac ghosts dots pellets idc flag hfood hg
    have hterm : Brain.checkTerminalState m pac ghosts dots pellets = some JNum.ninf := by
      rw [Brain.checkTerminalState]
      have hwin : ¬ (dots.length = 0 ∧ pellets.length = 0) := by
        rcases hfood with h | h
        · intro hc; exact h (List.length_eq_zero.mp hc.1)
        · intro hc; exact h (List.length_eq_zero.mp hc.2)
      obtain ⟨g, hgm, hgf, hgd⟩ := hg
      have hany : ghosts.any
          (fun g => !g.isFrightened && decide (Brain.heuristic m pac g.position ≤ 1)) = true :=
        List.any_eq_true.mpr ⟨g, hgm, by rw [hgf]; simpa using hgd⟩
      rw [if_neg hwin, if_pos hany]
    rw [Brain.evaluateState, hterm]
  · intro sd st cur d h
    rw [Brain.findBestMoveWithLookahead] at h ⊢
    dsimp only at h ⊢
    by_cases hvm : (Brain.getValidPacmanMoves m st.pacmanPos).isEmpty
    · rw [if_pos hvm] at h
      simp [Brain.dget, aget] at h
    · rw [if_neg hvm] at h ⊢
      rw [applyInertia_moveValues] at h
      have hnd : (Brain.getValidPacmanMoves m st.pacmanPos).Nodup := by
        rw [Brain.getValidPacmanMoves]
        exact List.Nodup.filter _ (by decide)
      have hkeys := rootScan_fold_keys_nodup m w sd st
        (st.dots.length + st.powerPellets.length) (Brain.getValidPacmanMoves m st.pacmanPos)
        ⟨none, JNum.ninf, []⟩ (by simp)
      have hscan := rootScan_inv m w sd st (st.dots.length + st.powerPellets.length)
        (Brain.getValidPacmanMoves m st.pacmanPos) ⟨none, JNum.ninf, []⟩ hnd
        (fun _ => rfl) (by intro x hx; simp at hx) (by intro x hx; simp at hx)
        (by intro x hx; simp at hx)
      have e1 : Brain.rootScan m w sd st (st.dots.length + st.powerPellets.length)
          (Brain.getValidPacmanMoves m st.pacmanPos) =
          List.foldl (Brain.rootScanStep m w sd st (st.dots.length + st.powerPellets.length))
            ⟨none, JNum.ninf, []⟩ (Brain.getValidPacmanMoves m st.pacmanPos) := rfl
      rw [← e1] at hkeys hscan
      have hR : ∀ e ∈ (Brain.rootScan m w sd st (st.dots.length + st.powerPellets.length)
          (Brain.getValidPacmanMoves m st.pacmanPos)).moveValues,
          Brain.dget (Brain.rootScan m w sd st (st.dots.length + st.powerPellets.length)
            (Brain.getValidPacmanMoves m st.pacmanPos)).moveValues e.1 = some e.2 :=
        fun e he => nodup_aget_of_mem hkeys he
      have htier := rootTier2_inv m w st
        (Brain.rootScan m w sd st (st.dots.length + st.powerPellets.length)
          (Brain.getValidPacmanMoves m st.pacmanPos)).moveValues
        (Brain.rootScan m w sd st (st.dots.length + st.powerPellets.length)
          (Brain.getValidPacmanMoves m st.pacmanPos))
        hkeys hscan.1 hscan.2.1 hR hscan.2.2
      have e2 : Brain.rootTier2 m w st
          (Brain.rootScan m w sd st (st.dots.length + st.powerPellets.length)
            (Brain.getValidPacmanMoves m st.pacmanPos)) =
          List.foldl (Brain.rootTier2Step m w st)
            (Brain.rootScan m w sd st (st.dots.length + st.powerPellets.length)
              (Brain.getValidPacmanMoves m st.pacmanPos))
            (Brain.rootScan m w sd st (st.dots.length + st.powerPellets.length)
              (Brain.getValidPacmanMoves m st.pacmanPos)).moveValues := rfl
      rw [← e2] at htier
      have hbm2 : (Brain.rootTier2 m w st
          (Brain.rootScan m w sd st (st.dots.length + st.powerPellets.length)
            (Brain.getValidPacmanMoves m st.pacmanPos))).bestMove ≠ some d := by
        intro hc
        exact htier.2.2 d hc h
      exact applyInertia_ninf m st (Brain.getValidPacmanMoves m st.pacmanPos) cur _ d
        htier.2.1 h hbm2

/-- The maze of the C6 counterexample: a 2×2 open pocket. -/
def mex6 : Maze where
  layout := [[1, 1, 0], [1, 1, 0], [0, 0, 0]]
  teleports := []
  starting :=
    { pacman := ⟨1, 1⟩, ghostHouse := ⟨0, 0⟩, blinky := ⟨0, 0⟩
      pinky := ⟨0, 0⟩, inky := ⟨0, 0⟩, clyde := ⟨0, 0⟩ }

/-- The non-frightened ghost of the C6 counterexample at `(0,0)`. -/
def ghost6 : Brain.Ghost := { position := ⟨0, 0⟩, direction := .RIGHT, isFrightened := false }

/-- Counterexample for C6 as stated: from `(1,1)` with no food left, moving UP
is walkable and lands within distance 1 of the non-frightened ghost, yet the
evaluation of the reached state is `+∞` (the win check precedes the loss
check), and the root selection at the default depth 12 picks UP even though
LEFT is an alternative walkable direction (the ghost AI's previous facing is
DOWN). -/
theorem C6_cex :
    Brain.isWalkable mex6 (Brain.getPositionFromMove mex6 ⟨1, 1⟩ Direction.UP) = true ∧
    (∃ g ∈ [ghost6], g.isFrightened = false ∧
      Brain.heuristic mex6 (Brain.getPositionFromMove mex6 ⟨1, 1⟩ Direction.UP) g.position ≤ 1) ∧
    Brain.evaluateState mex6 Brain.defaultWeights
        (Brain.getPositionFromMove mex6 ⟨1, 1⟩ Direction.UP) [ghost6] [] [] 0 false ≠
      JNum.ninf ∧
    Brain.isWalkable mex6 (Brain.getPositionFromMove mex6 ⟨1, 1⟩ Direction.LEFT) = true ∧
    Direction.LEFT ≠ Direction.UP ∧
    Brain.findBestDirection mex6 Brain.defaultWeights 12 ⟨1, 1⟩ Direction.DOWN [] []
      [ghost6] false [] = some Direction.UP := by
  decide

/-- The C6 witness state: both walkable moves from `(1,1)` land next to the
ghost while a far-away dot keeps food on the board. -/
def st6b : Brain.SimState where
  pacmanPos := ⟨1, 1⟩
  previousPacmanPos := ⟨1, 1⟩
  ghosts := [ghost6]
  dots := [⟨9, 9⟩]
  powerPellets := []
  positionHistory := []

/-- Witness for C6: with food remaining, the post-UP state evaluates to `-∞`,
and the root selection (depth 1) does not return UP — its recorded root value
is `-∞` (here every move scores `-∞`, so the selection returns null). -/
theorem C6_witness :
    Brain.evaluateState mex6 Brain.defaultWeights ⟨1, 0⟩ [ghost6] [⟨9, 9⟩] [] 1 false =
      JNum.ninf ∧
    (Brain.findBestMoveWithLookahead mex6 Brain.defaultWeights 1 st6b Direction.LEFT).1 ≠
      some Direction.UP :=
  ⟨(C6_adjacent_ghost mex6 Brain.defaultWeights).1 ⟨1, 0⟩ [ghost6] [⟨9, 9⟩] [] 1 false
    (Or.inl (by decide)) ⟨ghost6, by decide, rfl, by decide⟩,
   (C6_adjacent_ghost mex6 Brain.defaultWeights).2 1 st6b Direction.LEFT Direction.UP
    (by decide)⟩
